import Mathlib

/-!
# Device-Mapper proxy target (`dmp.c`): statistics engine

A shallow embedding of the statistics path of `src/dmp.c`:

* `how_many_digits`, `save_to_buf`  : rendering of the report into `stat_buf`;
* `dmp_map`                         : classification of a bio, running-average update;
* `sysfs_stat_init`                 : allocation and first rendering of `stat_buf`;
* `dmp_init`                        : module load, which drops the code of the above;
* `stat_show`                       : the read side of the sysfs attribute;
* `dmp_ctr`, `dmp_get_args`         : the constructor of the target;
* `call_step`, `interleave`         : the statements of `dmp_map` on the shared
                                      variables, for calls that run at the same time.

Machine integers are natural numbers reduced explicitly (`% 2 ^ 64` for
`unsigned long long`, `% 2 ^ 32` for `unsigned int`).  A division by zero and a
write outside `stat_buf` have no defined result in C; both are `none` here.
-/

namespace Dmp

/-! ## Constants of the kernel headers used by `dmp.c` -/

/-- Modelled from the spec: the page size of the host (`PAGE_SIZE`), which `dmp.c`
takes from the kernel headers; the report buffer has `PAGE_SIZE - 1 = 4095` bytes. -/
def PAGE_SIZE : Nat := 4096

/-- Value of `REQ_OP_READ` in `enum req_op`. -/
def REQ_OP_READ : Nat := 0

/-- Value of `REQ_OP_WRITE` in `enum req_op`. -/
def REQ_OP_WRITE : Nat := 1

/-- Value of `REQ_OP_DISCARD` in `enum req_op` (an operation `dmp_map` does not handle). -/
def REQ_OP_DISCARD : Nat := 3

/-- Return code of a map function that has submitted the bio itself. -/
def DM_MAPIO_SUBMITTED : Int := 0

/-- Return code of a map function that refuses the bio. -/
def DM_MAPIO_KILL : Int := 4

/-- Value of the errno `ENOMEM`. -/
def ENOMEM : Int := 12

/-- Value of the errno `EINVAL`. -/
def EINVAL : Int := 22

/-- Value of the errno `ENOMSG`. -/
def ENOMSG : Int := 42

/-! ## Data model -/

/-- The part of `struct bio` that `dmp_map` reads: `op` is the value of `bio_op(bio)`,
`rahead` tells whether `bio->bi_opf & REQ_RAHEAD` is non-zero, and `segs` lists the
`bv_len` of the segments in the order `bio_for_each_segment` visits them.  The lists a
block layer can hand over are those of `Bio.wf`. -/
structure Bio where
  op : Nat
  rahead : Bool
  segs : List Nat
deriving DecidableEq

/-- The bound that `struct bio` puts on a segment walk (a declaration of the kernel
headers, not of `dmp.c`): the lengths that `bio_for_each_segment` yields add up to
`bi_iter.bi_size`, which is an `unsigned int`. -/
def Bio.wf (bio : Bio) : Prop := bio.segs.sum < 2 ^ 32

instance Bio.decidable_wf (bio : Bio) : Decidable bio.wf :=
  Nat.decLt _ _

/-- The file-scope variables of `dmp.c`: the four counters and the bytes of `stat_buf`. -/
structure State where
  read_reqs : Nat
  read_avg_size : Nat
  write_reqs : Nat
  write_avg_size : Nat
  stat_buf : List Char
deriving DecidableEq

/-- The terminating byte that `sprintf` appends. -/
def NUL : Char := Char.ofNat 0

/-! ## `how_many_digits` -/

/-- The `while (number != 0)` loop of `how_many_digits`. -/
def how_many_digits_loop (number res : Nat) : Nat :=
  if h : number ≠ 0 then how_many_digits_loop (number / 10) (res + 1) else res
termination_by number
decreasing_by exact Nat.div_lt_self (Nat.pos_of_ne_zero h) (by decide)

/-- The function `how_many_digits` of `dmp.c`: `res` starts at `(number == 0)`. -/
def how_many_digits (number : Nat) : Nat :=
  how_many_digits_loop number (if number = 0 then 1 else 0)

/-! ## `sprintf` into `stat_buf` -/

/-- The conversion `%llu` (and `%i` of a non-negative value): plain decimal digits. -/
def fmt_llu (n : Nat) : List Char := Nat.toDigits 10 n

/-- The call `sprintf(stat_buf + offset, ...)` whose expanded format is `text`: the
characters of `text` and one terminating NUL are stored from `offset` on.  A store
outside the buffer is an overrun, `none`. -/
def sprintf_at (buf : List Char) (offset : Nat) (text : List Char) : Option (List Char) :=
  if offset + text.length + 1 ≤ buf.length then
    some (buf.take offset ++ (text ++ [NUL]) ++ buf.drop (offset + text.length + 1))
  else
    none

/-- The function `save_to_buf` of `dmp.c`, with its hand-computed offsets. -/
def save_to_buf (s : State) : Option State :=
  let offset := 13
  (sprintf_at s.stat_buf offset (fmt_llu s.read_reqs ++ "\n avg size: ".toList)).bind fun b1 =>
  let offset := offset + (how_many_digits s.read_reqs + 12)
  (sprintf_at b1 offset (fmt_llu s.read_avg_size ++ "\nwrite:\n reqs: ".toList)).bind fun b2 =>
  let offset := offset + (how_many_digits s.read_avg_size + 15)
  (sprintf_at b2 offset (fmt_llu s.write_reqs ++ "\n avg size: ".toList)).bind fun b3 =>
  let offset := offset + (how_many_digits s.write_reqs + 12)
  (sprintf_at b3 offset (fmt_llu s.write_avg_size ++ "\ntotal:\n reqs: ".toList)).bind fun b4 =>
  let offset := offset + (how_many_digits s.write_avg_size + 15)
  (sprintf_at b4 offset
    (fmt_llu ((s.read_reqs + s.write_reqs) % 2 ^ 64) ++ "\n avg size: ".toList)).bind fun b5 =>
  let offset := offset + (how_many_digits ((s.read_reqs + s.write_reqs) % 2 ^ 64) + 12)
  if (s.read_reqs + s.write_reqs) % 2 ^ 64 = 0 then
    (sprintf_at b5 offset (fmt_llu 0 ++ "\n".toList)).map fun b6 => { s with stat_buf := b6 }
  else
    (sprintf_at b5 offset
      (fmt_llu (((s.read_avg_size * s.read_reqs) % 2 ^ 64
                  + (s.write_avg_size * s.write_reqs) % 2 ^ 64) % 2 ^ 64
                / ((s.read_reqs + s.write_reqs) % 2 ^ 64)) ++ "\n".toList)).map
      fun b6 => { s with stat_buf := b6 }

/-! ## `dmp_map` -/

/-- The loop `bio_for_each_segment(bv, bio, iter) { segs++; len += bv.bv_len; }`
started from the given `segs` (`unsigned long long`) and `len` (`unsigned int`). -/
def bio_for_each_segment : List Nat → Nat × Nat → Nat × Nat
  | [], acc => acc
  | bv_len :: rest, (segs, len) =>
      bio_for_each_segment rest ((segs + 1) % 2 ^ 64, (len + bv_len) % 2 ^ 32)

/-- Unsigned 64-bit division; a zero divisor has no result. -/
def udiv64 (a b : Nat) : Option Nat :=
  if b = 0 then none else some (a / b)

/-- The function `dmp_map` of `dmp.c` on the file-scope state.  The result is the new
state and the returned code; `none` when the call does not return (division by
zero, or a store outside `stat_buf`). -/
def dmp_map (s : State) (bio : Bio) : Option (State × Int) :=
  let walk := bio_for_each_segment bio.segs (0, 0)
  let segs := walk.1
  let len := walk.2
  if bio.op = REQ_OP_READ then
    if bio.rahead then
      some (s, DM_MAPIO_KILL)
    else
      (udiv64 (((s.read_avg_size * s.read_reqs) % 2 ^ 64 + len) % 2 ^ 64)
          ((s.read_reqs + segs) % 2 ^ 64)).bind fun avg =>
      (save_to_buf { s with read_avg_size := avg,
                            read_reqs := (s.read_reqs + segs) % 2 ^ 64 }).map
        fun s2 => (s2, DM_MAPIO_SUBMITTED)
  else if bio.op = REQ_OP_WRITE then
    (udiv64 (((s.write_avg_size * s.write_reqs) % 2 ^ 64 + len) % 2 ^ 64)
        ((s.write_reqs + segs) % 2 ^ 64)).bind fun avg =>
    (save_to_buf { s with write_avg_size := avg,
                          write_reqs := (s.write_reqs + segs) % 2 ^ 64 }).map
      fun s2 => (s2, DM_MAPIO_SUBMITTED)
  else
    some (s, DM_MAPIO_KILL)

/-! ## `sysfs_stat_init` -/

/-- What the kernel answers to the three calls `sysfs_stat_init` makes: whether
`kzalloc` returns a buffer, whether `kobject_create_and_add` returns a kobject, and
whether `sysfs_create_file` returns 0. -/
structure SysfsHost where
  kzalloc_ok : Bool
  kobject_ok : Bool
  create_file_ok : Bool
deriving DecidableEq

/-- The kernel in which all three calls of `sysfs_stat_init` succeed. -/
def sysfs_ok : SysfsHost := { kzalloc_ok := true, kobject_ok := true, create_file_ok := true }

/-- The function `sysfs_stat_init` of `dmp.c` on the zero-initialised statics: the
state it leaves and the code it returns.  After a successful `kzalloc(PAGE_SIZE - 1)`
the header is written by `sprintf(stat_buf, "%s", "read:\n reqs: ")`, then
`save_to_buf` runs.  A `stat_buf` that is null (failed `kzalloc`) or that has been
given to `kfree` has no byte that may be read or stored: it is the empty buffer. -/
def sysfs_stat_init (host : SysfsHost) : Option (State × Int) :=
  if host.kzalloc_ok = false then
    some ({ read_reqs := 0, read_avg_size := 0, write_reqs := 0, write_avg_size := 0,
            stat_buf := [] }, -ENOMEM)
  else
    (sprintf_at (List.replicate (PAGE_SIZE - 1) NUL) 0 "read:\n reqs: ".toList).bind fun b =>
    (save_to_buf { read_reqs := 0, read_avg_size := 0, write_reqs := 0, write_avg_size := 0,
                   stat_buf := b }).bind fun s =>
    if host.kobject_ok = false then
      some ({ s with stat_buf := [] }, -ENOMSG)
    else if host.create_file_ok = false then
      some ({ s with stat_buf := [] }, -ENOMSG)
    else
      some (s, 0)

/-- The function `dmp_init` of `dmp.c`: the code of `sysfs_stat_init` is not checked
(`// TODO : check ret`) and the result of `dm_register_target` is returned; when that
is 0 the target is registered and `dmp_map` is called on the state left behind. -/
def dmp_init (host : SysfsHost) (dm_register_target : Int) : Option (State × Int) :=
  (sysfs_stat_init host).map fun r => (r.1, dm_register_target)

/-! ## Calls of `dmp_map` that run at the same time -/

/-- Where a call of `dmp_map` stands after its segment walk: before the `switch`
(l.137), before the `+=` of its class (l.143 or l.147), before `save_to_buf` (l.153),
or returned with a code. -/
inductive Pc where
  | at_switch
  | at_count
  | at_save
  | returned (code : Int)
deriving DecidableEq

/-- A call of `dmp_map` in progress: its bio and where it stands. -/
structure Call where
  bio : Bio
  pc : Pc
deriving DecidableEq

/-- The next statement of a call of `dmp_map` on the file-scope variables, executed
as one step: the assignment of the average (l.142 or l.146) or a refusal, the `+=`
of the count (l.143 or l.147), or `save_to_buf` followed by the return (l.153-157).
The function takes no lock, so nothing else orders the statements of two calls. -/
def call_step (s : State) (t : Call) : Option (State × Call) :=
  let walk := bio_for_each_segment t.bio.segs (0, 0)
  let segs := walk.1
  let len := walk.2
  match t.pc with
  | Pc.at_switch =>
    if t.bio.op = REQ_OP_READ then
      if t.bio.rahead then
        some (s, { t with pc := Pc.returned DM_MAPIO_KILL })
      else
        (udiv64 (((s.read_avg_size * s.read_reqs) % 2 ^ 64 + len) % 2 ^ 64)
            ((s.read_reqs + segs) % 2 ^ 64)).map fun avg =>
          ({ s with read_avg_size := avg }, { t with pc := Pc.at_count })
    else if t.bio.op = REQ_OP_WRITE then
      (udiv64 (((s.write_avg_size * s.write_reqs) % 2 ^ 64 + len) % 2 ^ 64)
          ((s.write_reqs + segs) % 2 ^ 64)).map fun avg =>
        ({ s with write_avg_size := avg }, { t with pc := Pc.at_count })
    else
      some (s, { t with pc := Pc.returned DM_MAPIO_KILL })
  | Pc.at_count =>
    if t.bio.op = REQ_OP_READ then
      some ({ s with read_reqs := (s.read_reqs + segs) % 2 ^ 64 }, { t with pc := Pc.at_save })
    else
      some ({ s with write_reqs := (s.write_reqs + segs) % 2 ^ 64 },
            { t with pc := Pc.at_save })
  | Pc.at_save =>
    (save_to_buf s).map fun s2 => (s2, { t with pc := Pc.returned DM_MAPIO_SUBMITTED })
  | Pc.returned _ => some (s, t)

/-- Calls of `dmp_map` in progress at the same time, every C statement taken as one
step: `schedule` names, step by step, the call that executes its next statement. -/
def interleave : State → List Call → List Nat → Option (State × List Call)
  | s, calls, [] => some (s, calls)
  | s, calls, i :: schedule =>
    match calls[i]? with
    | none => none
    | some t => (call_step s t).bind fun r => interleave r.1 (calls.set i r.2) schedule

/-! ## Reading the state: the report text -/

/-- Reads the C string held in a buffer: the bytes before the first NUL. -/
def cstr (buf : List Char) : List Char := buf.takeWhile (fun c => c ≠ NUL)

/-- The 13 characters that `sysfs_stat_init` stores at the start of `stat_buf`. -/
def stat_header : List Char := "read:\n reqs: ".toList

/-- The report layout of the specification (section 4.3) for the six numbers of a
snapshot, every number in plain decimal. -/
def format (readUnits readAvgSize writeUnits writeAvgSize totalUnits totalAvgSize : Nat) :
    List Char :=
  "read:\n reqs: ".toList ++ fmt_llu readUnits ++
  "\n avg size: ".toList ++ fmt_llu readAvgSize ++
  "\nwrite:\n reqs: ".toList ++ fmt_llu writeUnits ++
  "\n avg size: ".toList ++ fmt_llu writeAvgSize ++
  "\ntotal:\n reqs: ".toList ++ fmt_llu totalUnits ++
  "\n avg size: ".toList ++ fmt_llu totalAvgSize ++ "\n".toList

/-- The sum `read_reqs + write_reqs` as `save_to_buf` computes it (64-bit). -/
def total_reqs (s : State) : Nat := (s.read_reqs + s.write_reqs) % 2 ^ 64

/-- The last number `save_to_buf` prints: `0` when the 64-bit sum of the counts is
zero, else the 64-bit weighted sum divided by it. -/
def total_avg_size (s : State) : Nat :=
  if total_reqs s = 0 then 0
  else ((s.read_avg_size * s.read_reqs) % 2 ^ 64
          + (s.write_avg_size * s.write_reqs) % 2 ^ 64) % 2 ^ 64 / total_reqs s

/-- The report text for the current counters. -/
def report (s : State) : List Char :=
  format s.read_reqs s.read_avg_size s.write_reqs s.write_avg_size
    (total_reqs s) (total_avg_size s)

/-- The four counters are 64-bit values. -/
def counters_u64 (s : State) : Prop :=
  s.read_reqs < 2 ^ 64 ∧ s.read_avg_size < 2 ^ 64 ∧
  s.write_reqs < 2 ^ 64 ∧ s.write_avg_size < 2 ^ 64

/-- The state is well-formed: 64-bit counters, and `stat_buf` has the `PAGE_SIZE - 1`
bytes that `sysfs_stat_init` allocates. -/
def State.wf (s : State) : Prop :=
  counters_u64 s ∧ s.stat_buf.length = PAGE_SIZE - 1

/-- The buffer starts with the header that `sysfs_stat_init` stores. -/
def has_header (s : State) : Prop := s.stat_buf.take 13 = stat_header

/-- The two classes of statistics. -/
inductive IoClass where
  | Read
  | Write
deriving DecidableEq

/-- The request counter of a class. -/
def State.reqs (s : State) : IoClass → Nat
  | IoClass.Read => s.read_reqs
  | IoClass.Write => s.write_reqs

/-- The stored average of a class. -/
def State.avg_size (s : State) : IoClass → Nat
  | IoClass.Read => s.read_avg_size
  | IoClass.Write => s.write_avg_size

/-- The class of a bio that `dmp_map` accounts and submits (a read without the
read-ahead flag, or a write); `none` for every other bio. -/
def Bio.cls (bio : Bio) : Option IoClass :=
  if bio.op = REQ_OP_READ then
    if bio.rahead then none else some IoClass.Read
  else if bio.op = REQ_OP_WRITE then some IoClass.Write
  else none

/-- The value of `segs` after the segment walk of `dmp_map`. -/
def Bio.nsegs (bio : Bio) : Nat := (bio_for_each_segment bio.segs (0, 0)).1

/-- The value of `len` after the segment walk of `dmp_map`. -/
def Bio.len (bio : Bio) : Nat := (bio_for_each_segment bio.segs (0, 0)).2

/-- Successive calls of `dmp_map`, one per bio, each on the state the previous call
left; `none` as soon as one call does not return. -/
def dmp_map_seq (s : State) : List Bio → Option State
  | [] => some s
  | bio :: rest => (dmp_map s bio).bind fun r => dmp_map_seq r.1 rest

/-- The state inside `sysfs_stat_init` right after the header has been stored in the
zero-filled buffer and before the first `save_to_buf`. -/
def header_state : State :=
  { read_reqs := 0, read_avg_size := 0, write_reqs := 0, write_avg_size := 0,
    stat_buf := stat_header ++ List.replicate (PAGE_SIZE - 1 - 13) NUL }

/-! ## `stat_show` -/

/-- The library call `strncpy(dest, src, n)`: the characters of `src` before its first
NUL, at most `n` of them, are stored at the start of `dest` and the remainder of the
first `n` bytes of `dest` is filled with NUL.  A store outside `dest` or a read
outside `src` is `none`. -/
def strncpy (dest src : List Char) (n : Nat) : Option (List Char) :=
  let text := (src.take n).takeWhile (fun c => c ≠ NUL)
  if n ≤ dest.length ∧ (text.length < n → text.length < src.length) then
    some (text ++ List.replicate (n - text.length) NUL ++ dest.drop n)
  else
    none

/-- The function `stat_show` of `dmp.c` (the read side of the sysfs attribute): the new
content of the caller's page `buf` and the returned length. -/
def stat_show (s : State) (buf : List Char) : Option (List Char × Int) :=
  (strncpy buf s.stat_buf (PAGE_SIZE - 1)).map fun b => (b, (PAGE_SIZE : Int) - 1)

/-- The state after a `sysfs_stat_init` in which every call succeeds (it returns 0 and
the status endpoint exists) and then one call of `dmp_map` per bio. -/
def dmp_run (bios : List Bio) : Option State :=
  (sysfs_stat_init sysfs_ok).bind fun r => dmp_map_seq r.1 bios

/-! ## `dmp_ctr` and `dmp_get_args` -/

/-- The context `struct dmp_c`: the device handle and the start sector. -/
structure dmp_c where
  dev : Nat
  start : Nat
deriving DecidableEq

/-- The fields of `struct dm_target` that `dmp.c` writes: the error message and
`private` (`none` is the null pointer). -/
structure dm_target where
  error : String
  priv : Option dmp_c
deriving DecidableEq

/-- What the kernel answers to the two calls `dmp_get_args` makes: whether `kzalloc`
succeeds, and the return code and device handle of `dm_get_device` for a path. -/
structure Host where
  kzalloc_ok : Bool
  dm_get_device : String → Int × Nat

/-- Everything a constructor call can touch: the statistics state, the target, the
paths passed to `dm_get_device` so far, and the number of live `dmp_c` allocations. -/
structure Kernel where
  stats : State
  ti : dm_target
  lookups : List String
  allocated : Nat
deriving DecidableEq

/-- The function `dmp_get_args` of `dmp.c`; `none` when `argv[0]` is read from an empty
argument vector. -/
def dmp_get_args (host : Host) (k : Kernel) (_argc : Nat) (argv : List String) :
    Option (Kernel × Int) :=
  if host.kzalloc_ok = false then
    some ({ k with ti := { k.ti with error := "Cannot allocate dmp context" } }, -ENOMEM)
  else
    match argv with
    | [] => none
    | path :: _ =>
      let k1 := { k with allocated := k.allocated + 1, lookups := k.lookups ++ [path] }
      let ret := (host.dm_get_device path).1
      if ret ≠ 0 then
        some ({ k1 with ti := { k1.ti with error := "Device lookup failed" },
                        allocated := k1.allocated - 1 }, ret)
      else
        some ({ k1 with ti := { k1.ti with
                  priv := some { dev := (host.dm_get_device path).2, start := 0 } } }, 0)

/-- The function `dmp_ctr` of `dmp.c`. -/
def dmp_ctr (host : Host) (k : Kernel) (argc : Nat) (argv : List String) :
    Option (Kernel × Int) :=
  if argc = 1 then
    (dmp_get_args host k argc argv).bind fun r =>
      if r.2 ≠ 0 then some (r.1, r.2) else some (r.1, 0)
  else
    some ({ k with ti := { k.ti with error := "One argument required" } }, -EINVAL)

/-- One update of class `c` on state `s` by `bio` wraps neither the segment count, nor
the 32-bit byte total, nor the 64-bit sum and count of the update. -/
def no_overflow_step (c : IoClass) (s : State) (bio : Bio) : Prop :=
  bio.segs.length < 2 ^ 64 ∧ bio.segs.sum < 2 ^ 32 ∧
  s.avg_size c * s.reqs c + bio.segs.sum < 2 ^ 64 ∧
  s.reqs c + bio.segs.length < 2 ^ 64

/-- No update wraps while `dmp_map` is applied to the bios in order from `s`. -/
def no_overflow_seq (c : IoClass) (s : State) : List Bio → Prop
  | [] => True
  | bio :: rest =>
      no_overflow_step c s bio ∧
      match dmp_map s bio with
      | some r => no_overflow_seq c r.1 rest
      | none => True

/-! # Theorems -/

/-! ## Digits, `sprintf` and C strings -/

theorem how_many_digits_loop_zero (res : Nat) : how_many_digits_loop 0 res = res := by
  rw [how_many_digits_loop]; simp

theorem how_many_digits_loop_pos (number res : Nat) (h : number ≠ 0) :
    how_many_digits_loop number res = how_many_digits_loop (number / 10) (res + 1) := by
  rw [how_many_digits_loop]; simp [h]

theorem toDigitsCore_length_eq_loop (fuel : Nat) :
    ∀ (n : Nat) (acc : List Char), n < fuel →
      (Nat.toDigitsCore 10 fuel n acc).length = how_many_digits_loop (n / 10) (acc.length + 1) := by
  induction fuel with
  | zero => intro n acc h; omega
  | succ fuel ih =>
    intro n acc h
    by_cases hz : n / 10 = 0
    · simp [Nat.toDigitsCore, hz, how_many_digits_loop_zero]
    · have hlt : n / 10 < fuel := by omega
      rw [how_many_digits_loop_pos _ _ hz]
      simp only [Nat.toDigitsCore, hz, if_false]
      rw [ih (n / 10) _ hlt]
      simp

theorem how_many_digits_eq_length (n : Nat) : how_many_digits n = (fmt_llu n).length := by
  unfold how_many_digits fmt_llu Nat.toDigits
  rw [toDigitsCore_length_eq_loop (n + 1) n [] (Nat.lt_succ_self n)]
  by_cases hn : n = 0
  · subst hn; simp [how_many_digits_loop_zero]
  · simp [hn, how_many_digits_loop_pos n 0 hn]

theorem digitChar_ne_NUL (m : Nat) (h : m < 10) : Nat.digitChar m ≠ NUL := by
  interval_cases m <;> decide

theorem toDigitsCore_ne_NUL (fuel : Nat) :
    ∀ (n : Nat) (acc : List Char), (∀ c ∈ acc, c ≠ NUL) →
      ∀ c ∈ Nat.toDigitsCore 10 fuel n acc, c ≠ NUL := by
  induction fuel with
  | zero => intro n acc h; simpa [Nat.toDigitsCore] using h
  | succ fuel ih =>
    intro n acc h
    have hcons : ∀ c ∈ Nat.digitChar (n % 10) :: acc, c ≠ NUL := by
      intro c hc
      rcases List.mem_cons.1 hc with rfl | hc
      · exact digitChar_ne_NUL _ (Nat.mod_lt _ (by decide))
      · exact h c hc
    by_cases hz : n / 10 = 0
    · simpa [Nat.toDigitsCore, hz] using hcons
    · simp only [Nat.toDigitsCore, hz, if_false]
      exact ih _ _ hcons

theorem fmt_llu_ne_NUL (n : Nat) : ∀ c ∈ fmt_llu n, c ≠ NUL :=
  toDigitsCore_ne_NUL _ _ _ (by simp)

theorem fmt_llu_length_le (n : Nat) (h : n < 2 ^ 64) : (fmt_llu n).length ≤ 20 :=
  Nat.toDigitsCore_length 10 (by decide) (n + 1) n 20
    (lt_of_lt_of_le h (by norm_num)) (by decide)

theorem how_many_digits_le (n : Nat) (h : n < 2 ^ 64) : how_many_digits n ≤ 20 := by
  rw [how_many_digits_eq_length]; exact fmt_llu_length_le n h

theorem sprintf_at_append (A B text : List Char) (off : Nat) (hoff : off = A.length)
    (hlen : text.length + 1 ≤ B.length) :
    sprintf_at (A ++ B) off text = some ((A ++ text) ++ NUL :: B.drop (text.length + 1)) := by
  subst hoff
  unfold sprintf_at
  have h1 : A.length + text.length + 1 ≤ (A ++ B).length := by
    simp only [List.length_append]; omega
  rw [if_pos h1]
  congr 1
  have h2 : List.take A.length (A ++ B) = A := by simp
  have h3 : List.drop (A.length + text.length + 1) (A ++ B) = B.drop (text.length + 1) := by
    rw [Nat.add_assoc, List.drop_append]
  rw [h2, h3]
  simp

theorem cstr_append_NUL (A R : List Char) (h : ∀ c ∈ A, c ≠ NUL) :
    cstr (A ++ NUL :: R) = A := by
  unfold cstr
  induction A with
  | nil => simp [List.takeWhile]
  | cons a A ih =>
    have ha : a ≠ NUL := h a (List.mem_cons_self _ _)
    have hA : ∀ c ∈ A, c ≠ NUL := fun c hc => h c (List.mem_cons_of_mem _ hc)
    have ih2 := ih hA
    simp only [List.cons_append, List.takeWhile, ha, ne_eq, not_false_eq_true, decide_True]
    exact congrArg (List.cons a) ih2

theorem total_avg_size_lt (s : State) : total_avg_size s < 2 ^ 64 := by
  unfold total_avg_size
  split
  · norm_num
  · exact lt_of_le_of_lt (Nat.div_le_self _ _) (Nat.mod_lt _ (by norm_num))

theorem save_to_buf_render (s : State) (H R : List Char)
    (hbuf : s.stat_buf = H ++ R) (e13 : H.length = 13) (hR : 188 ≤ R.length)
    (hc : counters_u64 s) :
    save_to_buf s
      = some { s with stat_buf :=
                 H ++ (report s).drop 13 ++ NUL :: R.drop ((report s).length - 12) } := by
  obtain ⟨h1, h2, h3, h4⟩ := hc
  have l1 := fmt_llu_length_le _ h1
  have l2 := fmt_llu_length_le _ h2
  have l3 := fmt_llu_length_le _ h3
  have l4 := fmt_llu_length_le _ h4
  have l5 := fmt_llu_length_le (total_reqs s) (Nat.mod_lt _ (by norm_num))
  have l6 := fmt_llu_length_le (total_avg_size s) (total_avg_size_lt s)
  have e12 : ("\n avg size: ".toList).length = 12 := by decide
  have e15 : ("\nwrite:\n reqs: ".toList).length = 15 := by decide
  have e15t : ("\ntotal:\n reqs: ".toList).length = 15 := by decide
  have e1 : ("\n".toList).length = 1 := by decide
  have e13s : stat_header.length = 13 := by decide
  have d1 := how_many_digits_eq_length s.read_reqs
  have d2 := how_many_digits_eq_length s.read_avg_size
  have d3 := how_many_digits_eq_length s.write_reqs
  have d4 := how_many_digits_eq_length s.write_avg_size
  have d5 := how_many_digits_eq_length (total_reqs s)
  -- the six expanded formats
  generalize ht1 : fmt_llu s.read_reqs ++ "\n avg size: ".toList = t1 at *
  generalize ht2 : fmt_llu s.read_avg_size ++ "\nwrite:\n reqs: ".toList = t2 at *
  generalize ht3 : fmt_llu s.write_reqs ++ "\n avg size: ".toList = t3 at *
  generalize ht4 : fmt_llu s.write_avg_size ++ "\ntotal:\n reqs: ".toList = t4 at *
  generalize ht5 : fmt_llu (total_reqs s) ++ "\n avg size: ".toList = t5 at *
  generalize ht6 : fmt_llu (total_avg_size s) ++ "\n".toList = t6 at *
  have m1 : t1.length = how_many_digits s.read_reqs + 12 := by
    rw [← ht1, List.length_append, e12, d1]
  have m2 : t2.length = how_many_digits s.read_avg_size + 15 := by
    rw [← ht2, List.length_append, e15, d2]
  have m3 : t3.length = how_many_digits s.write_reqs + 12 := by
    rw [← ht3, List.length_append, e12, d3]
  have m4 : t4.length = how_many_digits s.write_avg_size + 15 := by
    rw [← ht4, List.length_append, e15t, d4]
  have m5 : t5.length = how_many_digits (total_reqs s) + 12 := by
    rw [← ht5, List.length_append, e12, d5]
  have m6 : t6.length ≤ 21 := by
    rw [← ht6, List.length_append, e1]; omega
  rw [← d1] at l1; rw [← d2] at l2; rw [← d3] at l3; rw [← d4] at l4; rw [← d5] at l5
  -- the six stores
  have s1 := sprintf_at_append H R t1 13 e13.symm (by omega)
  generalize hB1 : (NUL :: R.drop (t1.length + 1)) = B1 at s1
  have b1 : B1.length = R.length - t1.length := by
    rw [← hB1]; simp only [List.length_cons, List.length_drop]; omega
  have s2 := sprintf_at_append (H ++ t1) B1 t2
    (13 + (how_many_digits s.read_reqs + 12))
    (by rw [List.length_append, e13, m1]) (by omega)
  generalize hB2 : (NUL :: B1.drop (t2.length + 1)) = B2 at s2
  have b2 : B2.length = B1.length - t2.length := by
    rw [← hB2]; simp only [List.length_cons, List.length_drop]; omega
  have s3 := sprintf_at_append (H ++ t1 ++ t2) B2 t3
    (13 + (how_many_digits s.read_reqs + 12) + (how_many_digits s.read_avg_size + 15))
    (by simp only [List.length_append, e13, m1, m2]) (by omega)
  generalize hB3 : (NUL :: B2.drop (t3.length + 1)) = B3 at s3
  have b3 : B3.length = B2.length - t3.length := by
    rw [← hB3]; simp only [List.length_cons, List.length_drop]; omega
  have s4 := sprintf_at_append (H ++ t1 ++ t2 ++ t3) B3 t4
    (13 + (how_many_digits s.read_reqs + 12) + (how_many_digits s.read_avg_size + 15)
      + (how_many_digits s.write_reqs + 12))
    (by simp only [List.length_append, e13, m1, m2, m3]) (by omega)
  generalize hB4 : (NUL :: B3.drop (t4.length + 1)) = B4 at s4
  have b4 : B4.length = B3.length - t4.length := by
    rw [← hB4]; simp only [List.length_cons, List.length_drop]; omega
  have s5 := sprintf_at_append (H ++ t1 ++ t2 ++ t3 ++ t4) B4 t5
    (13 + (how_many_digits s.read_reqs + 12) + (how_many_digits s.read_avg_size + 15)
      + (how_many_digits s.write_reqs + 12) + (how_many_digits s.write_avg_size + 15))
    (by simp only [List.length_append, e13, m1, m2, m3, m4]) (by omega)
  generalize hB5 : (NUL :: B4.drop (t5.length + 1)) = B5 at s5
  have b5 : B5.length = B4.length - t5.length := by
    rw [← hB5]; simp only [List.length_cons, List.length_drop]; omega
  have s6 := sprintf_at_append (H ++ t1 ++ t2 ++ t3 ++ t4 ++ t5) B5 t6
    (13 + (how_many_digits s.read_reqs + 12) + (how_many_digits s.read_avg_size + 15)
      + (how_many_digits s.write_reqs + 12) + (how_many_digits s.write_avg_size + 15)
      + (how_many_digits (total_reqs s) + 12))
    (by simp only [List.length_append, e13, m1, m2, m3, m4, m5]) (by omega)
  -- the text and the untouched rest of the buffer
  have hrep0 : report s = stat_header ++ (t1 ++ t2 ++ t3 ++ t4 ++ t5 ++ t6) := by
    rw [← ht1, ← ht2, ← ht3, ← ht4, ← ht5, ← ht6]
    simp only [report, format, stat_header, List.append_assoc]
  have hbody : (report s).drop 13 = t1 ++ t2 ++ t3 ++ t4 ++ t5 ++ t6 := by
    rw [hrep0]; exact List.drop_left' e13s
  have hrep : H ++ (report s).drop 13 = H ++ t1 ++ t2 ++ t3 ++ t4 ++ t5 ++ t6 := by
    rw [hbody]; simp only [List.append_assoc]
  have hlen : (report s).length - 12
      = t1.length + t2.length + t3.length + t4.length + t5.length + t6.length + 1 := by
    rw [hrep0]; simp only [List.length_append, e13s]; omega
  have hrest : B5.drop (t6.length + 1) = R.drop ((report s).length - 12) := by
    rw [hlen, ← hB5, ← hB4, ← hB3, ← hB2, ← hB1]
    simp only [List.drop_succ_cons, List.drop_drop]
    exact congrArg (fun n => List.drop n R) (by omega)
  rw [hrest, ← hrep] at s6
  have htr : (s.read_reqs + s.write_reqs) % 2 ^ 64 = total_reqs s := rfl
  unfold save_to_buf
  simp only [htr, hbuf, ht1, ht2, ht3, ht4, ht5, s1, s2, s3, s4, s5, Option.bind]
  by_cases hz : total_reqs s = 0
  · have h6 : fmt_llu 0 ++ "\n".toList = t6 := by
      rw [← ht6]; simp only [total_avg_size, hz, if_true]
    rw [if_pos hz]
    simp only [h6, s6, Option.map]
  · have h6 : fmt_llu (((s.read_avg_size * s.read_reqs) % 2 ^ 64
          + (s.write_avg_size * s.write_reqs) % 2 ^ 64) % 2 ^ 64 / total_reqs s)
          ++ "\n".toList = t6 := by
      rw [← ht6]; simp only [total_avg_size, hz, if_false]
    rw [if_neg hz]
    simp only [h6, s6, Option.map]

theorem format_ne_NUL (a b c d e f : Nat) : ∀ x ∈ format a b c d e f, x ≠ NUL := by
  intro x hx
  simp only [format, List.mem_append] at hx
  have k1 : ∀ y ∈ "read:\n reqs: ".toList, y ≠ NUL := by decide
  have k2 : ∀ y ∈ "\n avg size: ".toList, y ≠ NUL := by decide
  have k3 : ∀ y ∈ "\nwrite:\n reqs: ".toList, y ≠ NUL := by decide
  have k4 : ∀ y ∈ "\ntotal:\n reqs: ".toList, y ≠ NUL := by decide
  have k5 : ∀ y ∈ "\n".toList, y ≠ NUL := by decide
  rcases hx with
    ((((((((((((h | h) | h) | h) | h) | h) | h) | h) | h) | h) | h) | h) | h)
  · exact k1 x h
  · exact fmt_llu_ne_NUL _ x h
  · exact k2 x h
  · exact fmt_llu_ne_NUL _ x h
  · exact k3 x h
  · exact fmt_llu_ne_NUL _ x h
  · exact k2 x h
  · exact fmt_llu_ne_NUL _ x h
  · exact k4 x h
  · exact fmt_llu_ne_NUL _ x h
  · exact k2 x h
  · exact fmt_llu_ne_NUL _ x h
  · exact k5 x h

theorem report_eq_header_append (s : State) : report s = stat_header ++ (report s).drop 13 := by
  have h : report s = stat_header ++
      (fmt_llu s.read_reqs ++ ("\n avg size: ".toList ++ (fmt_llu s.read_avg_size ++
        ("\nwrite:\n reqs: ".toList ++ (fmt_llu s.write_reqs ++ ("\n avg size: ".toList ++
        (fmt_llu s.write_avg_size ++ ("\ntotal:\n reqs: ".toList ++ (fmt_llu (total_reqs s) ++
        ("\n avg size: ".toList ++ (fmt_llu (total_avg_size s) ++ "\n".toList))))))))))) := by
    simp only [report, format, stat_header, List.append_assoc]
  have e13s : stat_header.length = 13 := by decide
  conv_lhs => rw [h]
  rw [h, List.drop_left' e13s]

theorem report_length_le (s : State) (hc : counters_u64 s) : (report s).length ≤ 200 := by
  obtain ⟨h1, h2, h3, h4⟩ := hc
  have l1 := fmt_llu_length_le _ h1
  have l2 := fmt_llu_length_le _ h2
  have l3 := fmt_llu_length_le _ h3
  have l4 := fmt_llu_length_le _ h4
  have l5 := fmt_llu_length_le (total_reqs s) (Nat.mod_lt _ (by norm_num))
  have l6 := fmt_llu_length_le (total_avg_size s) (total_avg_size_lt s)
  have e13 : ("read:\n reqs: ".toList).length = 13 := by decide
  have e12 : ("\n avg size: ".toList).length = 12 := by decide
  have e15 : ("\nwrite:\n reqs: ".toList).length = 15 := by decide
  have e15t : ("\ntotal:\n reqs: ".toList).length = 15 := by decide
  have e1 : ("\n".toList).length = 1 := by decide
  simp only [report, format, List.length_append, e13, e12, e15, e15t, e1]
  omega

theorem report_length_ge (s : State) : 13 ≤ (report s).length := by
  rw [report_eq_header_append, List.length_append]
  have e13s : stat_header.length = 13 := by decide
  omega

/-- What `save_to_buf` does to a buffer of at least 201 bytes. -/
theorem save_to_buf_ok (s : State) (hc : counters_u64 s) (hlen : 201 ≤ s.stat_buf.length) :
    ∃ buf, save_to_buf s = some { s with stat_buf := buf } ∧
      buf.length = s.stat_buf.length ∧
      buf.take 13 = s.stat_buf.take 13 ∧
      buf.drop 201 = s.stat_buf.drop 201 ∧
      (has_header s → cstr buf = report s) := by
  have hsplit : s.stat_buf = s.stat_buf.take 13 ++ s.stat_buf.drop 13 :=
    (List.take_append_drop 13 s.stat_buf).symm
  have hH : (s.stat_buf.take 13).length = 13 := by
    rw [List.length_take]; omega
  have hRl : (s.stat_buf.drop 13).length = s.stat_buf.length - 13 := List.length_drop _ _
  have hle := report_length_le s hc
  have hge := report_length_ge s
  have hbl : ((report s).drop 13).length = (report s).length - 13 := List.length_drop _ _
  refine ⟨_, save_to_buf_render s _ _ hsplit hH (by omega) hc, ?_, ?_, ?_, ?_⟩
  · simp only [List.length_append, List.length_cons, List.length_drop, hH]
    omega
  · rw [List.append_assoc, List.take_left' hH]
  · have e : s.stat_buf.take 13 ++ (report s).drop 13 ++
          NUL :: (s.stat_buf.drop 13).drop ((report s).length - 12)
        = (s.stat_buf.take 13 ++ (report s).drop 13 ++ [NUL])
          ++ (s.stat_buf.drop 13).drop ((report s).length - 12) := by
      simp only [List.append_assoc, List.singleton_append]
    have el : (s.stat_buf.take 13 ++ (report s).drop 13 ++ [NUL]).length
        = (report s).length + 1 := by
      simp only [List.length_append, List.length_singleton, hH, hbl]; omega
    rw [e, List.drop_append_eq_append_drop, List.drop_eq_nil_of_le (by omega), el,
      List.nil_append, List.drop_drop, List.drop_drop]
    exact congrArg (fun n => List.drop n s.stat_buf) (by omega)
  · intro hh
    have hh2 : s.stat_buf.take 13 = stat_header := hh
    rw [hh2, ← report_eq_header_append]
    exact cstr_append_NUL _ _ (format_ne_NUL _ _ _ _ _ _)

theorem bio_for_each_segment_eq (l : List Nat) :
    ∀ (a b : Nat), a < 2 ^ 64 → b < 2 ^ 32 →
      bio_for_each_segment l (a, b) = ((a + l.length) % 2 ^ 64, (b + l.sum) % 2 ^ 32) := by
  induction l with
  | nil =>
    intro a b ha hb
    simp only [bio_for_each_segment, List.length_nil, List.sum_nil, Nat.add_zero,
      Nat.mod_eq_of_lt ha, Nat.mod_eq_of_lt hb]
  | cons x l ih =>
    intro a b _ _
    simp only [bio_for_each_segment, List.length_cons, List.sum_cons]
    rw [ih _ _ (Nat.mod_lt _ (by norm_num)) (Nat.mod_lt _ (by norm_num))]
    congr 1
    · omega
    · omega

theorem nsegs_eq (bio : Bio) : bio.nsegs = bio.segs.length % 2 ^ 64 := by
  unfold Bio.nsegs
  rw [bio_for_each_segment_eq _ 0 0 (by norm_num) (by norm_num)]
  simp

theorem len_eq (bio : Bio) : bio.len = bio.segs.sum % 2 ^ 32 := by
  unfold Bio.len
  rw [bio_for_each_segment_eq _ 0 0 (by norm_num) (by norm_num)]
  simp

theorem cls_read (bio : Bio) (h : bio.cls = some IoClass.Read) :
    bio.op = REQ_OP_READ ∧ bio.rahead = false := by
  unfold Bio.cls at h
  by_cases h1 : bio.op = REQ_OP_READ
  · cases h2 : bio.rahead
    · exact ⟨h1, rfl⟩
    · simp [h1, h2] at h
  · by_cases h3 : bio.op = REQ_OP_WRITE
    · rw [if_neg h1, if_pos h3] at h; cases h
    · rw [if_neg h1, if_neg h3] at h; cases h

theorem cls_write (bio : Bio) (h : bio.cls = some IoClass.Write) :
    bio.op ≠ REQ_OP_READ ∧ bio.op = REQ_OP_WRITE := by
  unfold Bio.cls at h
  by_cases h1 : bio.op = REQ_OP_READ
  · cases h2 : bio.rahead <;> simp [h1, h2] at h
  · by_cases h3 : bio.op = REQ_OP_WRITE
    · exact ⟨h1, h3⟩
    · rw [if_neg h1, if_neg h3] at h; cases h

theorem cls_none (bio : Bio) (h : bio.cls = none) :
    (bio.op = REQ_OP_READ ∧ bio.rahead = true) ∨
      (bio.op ≠ REQ_OP_READ ∧ bio.op ≠ REQ_OP_WRITE) := by
  unfold Bio.cls at h
  by_cases h1 : bio.op = REQ_OP_READ
  · cases h2 : bio.rahead
    · simp [h1, h2] at h
    · exact Or.inl ⟨h1, rfl⟩
  · by_cases h3 : bio.op = REQ_OP_WRITE
    · rw [if_neg h1, if_pos h3] at h; cases h
    · exact Or.inr ⟨h1, h3⟩

/-- A bio outside both classes is refused and nothing changes. -/
theorem dmp_map_of_cls_none (s : State) (bio : Bio) (h : bio.cls = none) :
    dmp_map s bio = some (s, DM_MAPIO_KILL) := by
  unfold dmp_map
  rcases cls_none bio h with ⟨h1, h2⟩ | ⟨h1, h2⟩
  · simp only [h1, h2, if_true]
  · simp only [h1, h2, if_false]

/-- A bio of a class hits the division by zero when the new count is zero. -/
theorem dmp_map_of_zero_divisor (s : State) (bio : Bio) (c : IoClass)
    (hc : bio.cls = some c) (hz : (s.reqs c + bio.nsegs) % 2 ^ 64 = 0) :
    dmp_map s bio = none := by
  unfold dmp_map
  cases c with
  | Read =>
    obtain ⟨h1, h2⟩ := cls_read bio hc
    have hz2 : (s.read_reqs + (bio_for_each_segment bio.segs (0, 0)).1) % 2 ^ 64 = 0 := hz
    simp only [h1, h2, if_true, hz2, udiv64, Option.bind, Bool.false_eq_true, if_false]
  | Write =>
    obtain ⟨h1, h2⟩ := cls_write bio hc
    have hz2 : (s.write_reqs + (bio_for_each_segment bio.segs (0, 0)).1) % 2 ^ 64 = 0 := hz
    rw [if_neg h1, if_pos h2]
    simp only [hz2, udiv64, Option.bind, if_true]

/-- A bio of a class is accounted and submitted when the new count is not zero. -/
theorem dmp_map_of_cls (s : State) (bio : Bio) (c : IoClass) (hwf : s.wf)
    (hc : bio.cls = some c) (hnz : (s.reqs c + bio.nsegs) % 2 ^ 64 ≠ 0) :
    ∃ s2, dmp_map s bio = some (s2, DM_MAPIO_SUBMITTED) ∧ s2.wf ∧
      s2.reqs c = (s.reqs c + bio.nsegs) % 2 ^ 64 ∧
      s2.avg_size c = ((s.avg_size c * s.reqs c) % 2 ^ 64 + bio.len) % 2 ^ 64
                        / ((s.reqs c + bio.nsegs) % 2 ^ 64) ∧
      (∀ d, d ≠ c → s2.reqs d = s.reqs d ∧ s2.avg_size d = s.avg_size d) ∧
      s2.stat_buf.take 13 = s.stat_buf.take 13 ∧
      s2.stat_buf.drop 201 = s.stat_buf.drop 201 ∧
      (has_header s → cstr s2.stat_buf = report s2) := by
  obtain ⟨⟨c1, c2, c3, c4⟩, hlen⟩ := hwf
  have h64 : (0 : Nat) < 2 ^ 64 := by norm_num
  have hpage : 201 ≤ PAGE_SIZE - 1 := by decide
  cases c with
  | Read =>
    obtain ⟨h1, h2⟩ := cls_read bio hc
    have hnz2 : (s.read_reqs + (bio_for_each_segment bio.segs (0, 0)).1) % 2 ^ 64 ≠ 0 := hnz
    have hcs : counters_u64
        { s with read_avg_size :=
                   ((s.read_avg_size * s.read_reqs) % 2 ^ 64 + bio.len) % 2 ^ 64
                     / ((s.read_reqs + bio.nsegs) % 2 ^ 64),
                 read_reqs := (s.read_reqs + bio.nsegs) % 2 ^ 64 } :=
      ⟨Nat.mod_lt _ h64, lt_of_le_of_lt (Nat.div_le_self _ _) (Nat.mod_lt _ h64), c3, c4⟩
    obtain ⟨buf, hs, hl, ht, hd, hr⟩ := save_to_buf_ok _ hcs (by rw [hlen]; exact hpage)
    refine ⟨{ read_reqs := (s.read_reqs + bio.nsegs) % 2 ^ 64,
              read_avg_size := ((s.read_avg_size * s.read_reqs) % 2 ^ 64 + bio.len) % 2 ^ 64
                     / ((s.read_reqs + bio.nsegs) % 2 ^ 64),
              write_reqs := s.write_reqs, write_avg_size := s.write_avg_size,
              stat_buf := buf }, ?_, ⟨hcs, hl.trans hlen⟩, rfl, rfl, ?_, ht, hd, hr⟩
    · unfold dmp_map
      simp only [h1, h2, if_true, hnz2, udiv64, Option.bind, Bool.false_eq_true, if_false]
      exact congrArg (Option.map fun s2 => (s2, DM_MAPIO_SUBMITTED)) hs
    · intro d hd2
      cases d with
      | Read => exact absurd rfl hd2
      | Write => exact ⟨rfl, rfl⟩
  | Write =>
    obtain ⟨h1, h2⟩ := cls_write bio hc
    have hnz2 : (s.write_reqs + (bio_for_each_segment bio.segs (0, 0)).1) % 2 ^ 64 ≠ 0 := hnz
    have hcs : counters_u64
        { s with write_avg_size :=
                   ((s.write_avg_size * s.write_reqs) % 2 ^ 64 + bio.len) % 2 ^ 64
                     / ((s.write_reqs + bio.nsegs) % 2 ^ 64),
                 write_reqs := (s.write_reqs + bio.nsegs) % 2 ^ 64 } :=
      ⟨c1, c2, Nat.mod_lt _ h64, lt_of_le_of_lt (Nat.div_le_self _ _) (Nat.mod_lt _ h64)⟩
    obtain ⟨buf, hs, hl, ht, hd, hr⟩ := save_to_buf_ok _ hcs (by rw [hlen]; exact hpage)
    refine ⟨{ read_reqs := s.read_reqs, read_avg_size := s.read_avg_size,
              write_reqs := (s.write_reqs + bio.nsegs) % 2 ^ 64,
              write_avg_size := ((s.write_avg_size * s.write_reqs) % 2 ^ 64 + bio.len) % 2 ^ 64
                     / ((s.write_reqs + bio.nsegs) % 2 ^ 64),
              stat_buf := buf }, ?_, ⟨hcs, hl.trans hlen⟩, rfl, rfl, ?_, ht, hd, hr⟩
    · unfold dmp_map
      rw [if_neg h1, if_pos h2]
      simp only [hnz2, udiv64, Option.bind, if_false]
      exact congrArg (Option.map fun s2 => (s2, DM_MAPIO_SUBMITTED)) hs
    · intro d hd2
      cases d with
      | Read => exact ⟨rfl, rfl⟩
      | Write => exact absurd rfl hd2

/-- The function `save_to_buf` writes `stat_buf` only. -/
theorem save_to_buf_counters (s s3 : State) (h : save_to_buf s = some s3) :
    ∃ buf, s3 = { s with stat_buf := buf } := by
  unfold save_to_buf at h
  simp only [Option.bind_eq_some] at h
  obtain ⟨b1, -, b2, -, b3, -, b4, -, b5, -, h⟩ := h
  split at h
  · simp only [Option.map_eq_some'] at h
    obtain ⟨b6, -, h⟩ := h
    exact ⟨b6, h.symm⟩
  · simp only [Option.map_eq_some'] at h
    obtain ⟨b6, -, h⟩ := h
    exact ⟨b6, h.symm⟩

/-- Every result of `dmp_map`: a refusal that changes nothing, or a submission of a
bio of some class whose new count is not zero. -/
theorem dmp_map_result (s s2 : State) (bio : Bio) (r : Int)
    (h : dmp_map s bio = some (s2, r)) :
    (bio.cls = none ∧ s2 = s ∧ r = DM_MAPIO_KILL) ∨
      (∃ c, bio.cls = some c ∧ r = DM_MAPIO_SUBMITTED ∧
        (s.reqs c + bio.nsegs) % 2 ^ 64 ≠ 0 ∧
        s2.reqs c = (s.reqs c + bio.nsegs) % 2 ^ 64 ∧
        s2.avg_size c = ((s.avg_size c * s.reqs c) % 2 ^ 64 + bio.len) % 2 ^ 64
                          / ((s.reqs c + bio.nsegs) % 2 ^ 64) ∧
        (∀ d, d ≠ c → s2.reqs d = s.reqs d ∧ s2.avg_size d = s.avg_size d)) := by
  cases hcls : bio.cls with
  | none =>
    rw [dmp_map_of_cls_none s bio hcls] at h
    cases h
    exact Or.inl ⟨rfl, rfl, rfl⟩
  | some c =>
    right
    by_cases hz : (s.reqs c + bio.nsegs) % 2 ^ 64 = 0
    · rw [dmp_map_of_zero_divisor s bio c hcls hz] at h; cases h
    · refine ⟨c, rfl, ?_⟩
      cases c with
      | Read =>
        obtain ⟨h1, h2⟩ := cls_read bio hcls
        have hnz2 : (s.read_reqs + (bio_for_each_segment bio.segs (0, 0)).1) % 2 ^ 64 ≠ 0 := hz
        unfold dmp_map at h
        simp only [h1, h2, if_true, hnz2, udiv64, Option.bind, Bool.false_eq_true,
          if_false, Option.map_eq_some'] at h
        obtain ⟨s3, hs, he⟩ := h
        obtain ⟨buf, hb⟩ := save_to_buf_counters _ _ hs
        cases he
        subst hb
        refine ⟨rfl, hz, rfl, rfl, ?_⟩
        intro d hd
        cases d with
        | Read => exact absurd rfl hd
        | Write => exact ⟨rfl, rfl⟩
      | Write =>
        obtain ⟨h1, h2⟩ := cls_write bio hcls
        have hnz2 : (s.write_reqs + (bio_for_each_segment bio.segs (0, 0)).1) % 2 ^ 64 ≠ 0 := hz
        unfold dmp_map at h
        rw [if_neg h1, if_pos h2] at h
        simp only [hnz2, udiv64, Option.bind, if_false, Option.map_eq_some'] at h
        obtain ⟨s3, hs, he⟩ := h
        obtain ⟨buf, hb⟩ := save_to_buf_counters _ _ hs
        cases he
        subst hb
        refine ⟨rfl, hz, rfl, rfl, ?_⟩
        intro d hd
        cases d with
        | Read => exact ⟨rfl, rfl⟩
        | Write => exact absurd rfl hd

theorem header_state_wf : header_state.wf := by
  refine ⟨⟨?_, ?_, ?_, ?_⟩, ?_⟩
  · show (0 : Nat) < 2 ^ 64; norm_num
  · show (0 : Nat) < 2 ^ 64; norm_num
  · show (0 : Nat) < 2 ^ 64; norm_num
  · show (0 : Nat) < 2 ^ 64; norm_num
  · show (stat_header ++ List.replicate (PAGE_SIZE - 1 - 13) NUL).length = PAGE_SIZE - 1
    rw [List.length_append, List.length_replicate]; decide

theorem header_state_has_header : has_header header_state := by
  show (stat_header ++ List.replicate (PAGE_SIZE - 1 - 13) NUL).take 13 = stat_header
  exact List.take_left' (by decide)

theorem sysfs_stat_init_eq (host : SysfsHost) (hk : host.kzalloc_ok = true) :
    sysfs_stat_init host
      = (save_to_buf header_state).bind fun s =>
          if host.kobject_ok = false then some ({ s with stat_buf := [] }, -ENOMSG)
          else if host.create_file_ok = false then some ({ s with stat_buf := [] }, -ENOMSG)
          else some (s, 0) := by
  unfold sysfs_stat_init
  have hk2 : ¬ host.kzalloc_ok = false := by rw [hk]; decide
  rw [if_neg hk2]
  have h := sprintf_at_append [] (List.replicate (PAGE_SIZE - 1) NUL) "read:\n reqs: ".toList 0
    rfl (by rw [List.length_replicate]; decide)
  rw [List.nil_append] at h
  rw [h]
  have e : ([] ++ "read:\n reqs: ".toList ++
      NUL :: List.drop ("read:\n reqs: ".toList.length + 1) (List.replicate (PAGE_SIZE - 1) NUL))
      = stat_header ++ List.replicate (PAGE_SIZE - 1 - 13) NUL := by
    rw [List.nil_append, List.drop_replicate]
    show stat_header ++ List.replicate 1 NUL ++ List.replicate (PAGE_SIZE - 1 - 14) NUL = _
    rw [List.append_assoc, ← List.replicate_add]
    rfl
  rw [e, Option.some_bind]
  rfl

/-- The state that a successful `sysfs_stat_init` leaves: zero counters and the
rendered report; the returned code is 0. -/
theorem sysfs_stat_init_ok :
    ∃ s0, sysfs_stat_init sysfs_ok = some (s0, 0) ∧ s0.wf ∧ has_header s0 ∧
      s0.read_reqs = 0 ∧ s0.read_avg_size = 0 ∧ s0.write_reqs = 0 ∧ s0.write_avg_size = 0 ∧
      cstr s0.stat_buf = report s0 := by
  obtain ⟨hc, hl⟩ := header_state_wf
  obtain ⟨buf, hs, hlen, ht, -, hr⟩ :=
    save_to_buf_ok header_state hc (by rw [hl]; decide)
  refine ⟨{ header_state with stat_buf := buf }, ?_, ⟨hc, hlen.trans hl⟩, ?_,
    rfl, rfl, rfl, rfl, hr header_state_has_header⟩
  · rw [sysfs_stat_init_eq sysfs_ok rfl, hs]
    rfl
  · exact ht.trans header_state_has_header

/-! ## The running-average update of `dmp_map` -/

theorem add_nsegs_mod (n : Nat) (bio : Bio) :
    (n + bio.nsegs) % 2 ^ 64 = (n + bio.segs.length) % 2 ^ 64 := by
  rw [nsegs_eq]; omega

theorem len_of_wf (bio : Bio) (h : bio.wf) : bio.len = bio.segs.sum := by
  rw [len_eq]; exact Nat.mod_eq_of_lt h

/-- C1: for every well-formed counter state and every bio of a class (a read without
the read-ahead flag, or a write) that carries `u` segments whose lengths total `b`
bytes (a total that fits the 32-bit size of a bio), with `oldCount + u` not zero in
64-bit arithmetic, `dmp_map` submits the bio and leaves that class's average equal to
`(oldAvg * oldCount + b) / (oldCount + u)` and its count equal to `oldCount + u`,
all in unsigned 64-bit arithmetic with truncating division. -/
theorem dmp_map_running_average (s : State) (bio : Bio) (c : IoClass) (u b : Nat)
    (hwf : s.wf) (hbio : bio.wf) (hc : bio.cls = some c)
    (hu : bio.segs.length = u) (hb : bio.segs.sum = b)
    (hnz : (s.reqs c + u) % 2 ^ 64 ≠ 0) :
    ∃ s2, dmp_map s bio = some (s2, DM_MAPIO_SUBMITTED) ∧
      s2.avg_size c = ((s.avg_size c * s.reqs c) % 2 ^ 64 + b) % 2 ^ 64
                        / ((s.reqs c + u) % 2 ^ 64) ∧
      s2.reqs c = (s.reqs c + u) % 2 ^ 64 := by
  subst hu hb
  rw [← add_nsegs_mod] at hnz
  obtain ⟨s2, h, -, hr, ha, -⟩ := dmp_map_of_cls s bio c hwf hc hnz
  rw [add_nsegs_mod] at hr ha
  rw [len_of_wf bio hbio] at ha
  exact ⟨s2, h, ha, hr⟩

/-- Witness of C1: a write of three segments (4096, 4096 and 512 bytes) on the state
with zero counters. -/
theorem dmp_map_running_average_witness :
    header_state.wf ∧
    Bio.wf ⟨REQ_OP_WRITE, false, [4096, 4096, 512]⟩ ∧
    (⟨REQ_OP_WRITE, false, [4096, 4096, 512]⟩ : Bio).cls = some IoClass.Write ∧
    ∃ s2, dmp_map header_state ⟨REQ_OP_WRITE, false, [4096, 4096, 512]⟩
            = some (s2, DM_MAPIO_SUBMITTED) ∧
      s2.avg_size IoClass.Write = ((0 * 0) % 2 ^ 64 + 8704) % 2 ^ 64 / ((0 + 3) % 2 ^ 64) ∧
      s2.reqs IoClass.Write = (0 + 3) % 2 ^ 64 :=
  ⟨header_state_wf, by decide, by decide,
    dmp_map_running_average header_state ⟨REQ_OP_WRITE, false, [4096, 4096, 512]⟩
      IoClass.Write 3 8704 header_state_wf (by decide) (by decide) (by decide) (by decide)
      (by decide)⟩

/-! ## Sequences of updates of one class -/

theorem avg_step_bounds (a N b u T k : Nat) (hN : 0 < N + u)
    (h1 : a * N ≤ T) (h2 : T ≤ a * N + k * (N - 1)) :
    (a * N + b) / (N + u) * (N + u) ≤ T + b ∧
      T + b ≤ (a * N + b) / (N + u) * (N + u) + (k + 1) * (N + u - 1) := by
  have hdm := Nat.div_add_mod (a * N + b) (N + u)
  have hmod : (a * N + b) % (N + u) < N + u := Nat.mod_lt _ hN
  have hle : (a * N + b) / (N + u) * (N + u) ≤ a * N + b := Nat.div_mul_le_self _ _
  have hk : k * (N - 1) ≤ k * (N + u - 1) := Nat.mul_le_mul_left k (by omega)
  have hcomm : (N + u) * ((a * N + b) / (N + u)) = (a * N + b) / (N + u) * (N + u) :=
    Nat.mul_comm _ _
  have hexp : (k + 1) * (N + u - 1) = k * (N + u - 1) + (N + u - 1) := by
    rw [Nat.add_mul, Nat.one_mul]
  constructor
  · omega
  · rw [hexp]; omega

theorem dmp_map_seq_invariant (c : IoClass) :
    ∀ (bios : List Bio) (s : State) (T k : Nat), s.wf →
      (∀ bio ∈ bios, bio.cls = some c) →
      (s.reqs c = 0 → ∀ bio ∈ bios.head?, bio.segs ≠ []) →
      s.reqs c + (bios.map fun bio => bio.segs.length).sum < 2 ^ 64 →
      T + (bios.map Bio.len).sum < 2 ^ 64 →
      s.avg_size c * s.reqs c ≤ T →
      T ≤ s.avg_size c * s.reqs c + k * (s.reqs c - 1) →
      ∃ s2, dmp_map_seq s bios = some s2 ∧ s2.wf ∧
        s2.reqs c = s.reqs c + (bios.map fun bio => bio.segs.length).sum ∧
        s2.avg_size c * s2.reqs c ≤ T + (bios.map Bio.len).sum ∧
        T + (bios.map Bio.len).sum
          ≤ s2.avg_size c * s2.reqs c + (k + bios.length) * (s2.reqs c - 1) := by
  intro bios
  induction bios with
  | nil =>
    intro s T k hwf _ _ _ _ h1 h2
    exact ⟨s, rfl, hwf, by simp, by simpa using h1, by simpa using h2⟩
  | cons bio rest ih =>
    intro s T k hwf hcls hfirst hU hB h1 h2
    simp only [List.map_cons, List.sum_cons] at hU hB
    have hc : bio.cls = some c := hcls bio (List.mem_cons_self _ _)
    have hpos : 0 < s.reqs c + bio.segs.length := by
      by_cases hz : s.reqs c = 0
      · have hne : bio.segs ≠ [] := hfirst hz bio (by simp)
        have : 0 < bio.segs.length := List.length_pos.2 hne
        omega
      · omega
    have hmodN : (s.reqs c + bio.nsegs) % 2 ^ 64 = s.reqs c + bio.segs.length := by
      rw [add_nsegs_mod]; exact Nat.mod_eq_of_lt (by omega)
    have hmodA : ((s.avg_size c * s.reqs c) % 2 ^ 64 + bio.len) % 2 ^ 64
        = s.avg_size c * s.reqs c + bio.len := by
      have hlt : s.avg_size c * s.reqs c < 2 ^ 64 := by omega
      rw [Nat.mod_eq_of_lt hlt]
      exact Nat.mod_eq_of_lt (by omega)
    obtain ⟨s1, hmap, hwf1, hr1, ha1, -⟩ :=
      dmp_map_of_cls s bio c hwf hc (by rw [hmodN]; omega)
    rw [hmodN] at hr1 ha1
    rw [hmodA] at ha1
    obtain ⟨b1, b2⟩ := avg_step_bounds (s.avg_size c) (s.reqs c) bio.len bio.segs.length T k
      hpos h1 h2
    rw [← ha1, ← hr1] at b1 b2
    obtain ⟨s2, hseq, hwf2, hr2, hlo, hhi⟩ := ih s1 (T + bio.len) (k + 1) hwf1
      (fun x hx => hcls x (List.mem_cons_of_mem _ hx))
      (fun hz => by omega) (by omega) (by omega) b1 b2
    refine ⟨s2, ?_, hwf2, ?_, ?_, ?_⟩
    · show (dmp_map s bio).bind (fun r => dmp_map_seq r.1 rest) = some s2
      rw [hmap]; exact hseq
    · simp only [List.map_cons, List.sum_cons]; omega
    · simp only [List.map_cons, List.sum_cons]; omega
    · simp only [List.map_cons, List.sum_cons, List.length_cons]
      have e : k + (rest.length + 1) = k + 1 + rest.length := by omega
      rw [e]; omega

/-- The bounds on the stored average in terms of the accumulated values of `len`. -/
theorem dmp_map_seq_average_len (c : IoClass) (s : State) (bios : List Bio)
    (hwf : s.wf) (hr0 : s.reqs c = 0) (ha0 : s.avg_size c = 0)
    (hcls : ∀ bio ∈ bios, bio.cls = some c)
    (hfirst : ∀ bio ∈ bios.head?, bio.segs ≠ [])
    (hU : (bios.map fun bio => bio.segs.length).sum < 2 ^ 64)
    (hB : (bios.map Bio.len).sum < 2 ^ 64) :
    ∃ s2, dmp_map_seq s bios = some s2 ∧
      s2.reqs c = (bios.map fun bio => bio.segs.length).sum ∧
      s2.avg_size c ≤ (bios.map Bio.len).sum / (bios.map fun bio => bio.segs.length).sum ∧
      (bios.map Bio.len).sum / (bios.map fun bio => bio.segs.length).sum
        ≤ s2.avg_size c + (bios.length - 1) := by
  obtain ⟨s2, hseq, -, hr, hlo, hhi⟩ := dmp_map_seq_invariant c bios s 0 0 hwf hcls
    (fun _ => hfirst) (by rw [hr0]; omega) (by omega) (by rw [hr0]; simp)
    (by rw [hr0]; simp)
  rw [hr0, Nat.zero_add] at hr
  simp only [Nat.zero_add] at hlo hhi
  refine ⟨s2, hseq, hr, ?_, ?_⟩
  · cases bios with
    | nil =>
      cases hseq
      rw [ha0]; exact Nat.zero_le _
    | cons bio rest =>
      have hne : bio.segs ≠ [] := hfirst bio (by simp)
      have hl : 0 < bio.segs.length := List.length_pos.2 hne
      have hpos : 0 < ((bio :: rest).map fun bio => bio.segs.length).sum := by
        simp only [List.map_cons, List.sum_cons]; omega
      rw [Nat.le_div_iff_mul_le hpos, ← hr]
      exact hlo
  · cases bios with
    | nil => simp
    | cons bio rest =>
      have hne : bio.segs ≠ [] := hfirst bio (by simp)
      have hl : 0 < bio.segs.length := List.length_pos.2 hne
      have hpos : 0 < ((bio :: rest).map fun bio => bio.segs.length).sum := by
        simp only [List.map_cons, List.sum_cons]; omega
      rw [hr] at hhi hlo
      generalize ((bio :: rest).map fun bio => bio.segs.length).sum = N at hhi hlo hpos ⊢
      generalize ((bio :: rest).map Bio.len).sum = B at hhi hlo ⊢
      have hn : (bio :: rest).length = rest.length + 1 := rfl
      rw [hn] at hhi ⊢
      have hlt : B / N < s2.avg_size c + (rest.length + 1) := by
        rw [Nat.div_lt_iff_lt_mul hpos, Nat.add_mul]
        have h3 : (rest.length + 1) * (N - 1) + (rest.length + 1) = (rest.length + 1) * N := by
          obtain ⟨m, rfl⟩ : ∃ m, N = m + 1 := ⟨N - 1, by omega⟩
          simp only [Nat.add_sub_cancel]
          rw [Nat.mul_add, Nat.mul_one]
        omega
      omega

theorem map_len_of_wf (bios : List Bio) (h : ∀ bio ∈ bios, bio.wf) :
    bios.map Bio.len = bios.map fun bio => bio.segs.sum :=
  List.map_congr_left fun bio hb => len_of_wf bio (h bio hb)

/-- C2 (amended): for every sequence of `n` bios of one class, each with segment
lengths that total a 32-bit size, whose first bio has at least one segment and whose
segment counts `u_i` and byte totals `b_i` (the sums of the segment lengths) each sum
to less than `2 ^ 64`, applied in order by `dmp_map` to a well-formed state in which
that class's count and average are zero, every call returns, the class's count
afterwards is `u_1 + ... + u_n`, and the stored average `a` satisfies
`a ≤ (b_1 + ... + b_n) / (u_1 + ... + u_n) ≤ a + (n - 1)` under truncating division:
it never exceeds the exact truncated average, equals it for a single update, and can
fall below it by at most `n - 1` after `n` updates. -/
theorem dmp_map_seq_average (c : IoClass) (s : State) (bios : List Bio)
    (hwf : s.wf) (hr0 : s.reqs c = 0) (ha0 : s.avg_size c = 0)
    (hcls : ∀ bio ∈ bios, bio.cls = some c)
    (hbio : ∀ bio ∈ bios, bio.wf)
    (hfirst : ∀ bio ∈ bios.head?, bio.segs ≠ [])
    (hU : (bios.map fun bio => bio.segs.length).sum < 2 ^ 64)
    (hB : (bios.map fun bio => bio.segs.sum).sum < 2 ^ 64) :
    ∃ s2, dmp_map_seq s bios = some s2 ∧
      s2.reqs c = (bios.map fun bio => bio.segs.length).sum ∧
      s2.avg_size c
        ≤ (bios.map fun bio => bio.segs.sum).sum
            / (bios.map fun bio => bio.segs.length).sum ∧
      (bios.map fun bio => bio.segs.sum).sum / (bios.map fun bio => bio.segs.length).sum
        ≤ s2.avg_size c + (bios.length - 1) := by
  have e := map_len_of_wf bios hbio
  have h := dmp_map_seq_average_len c s bios hwf hr0 ha0 hcls hfirst hU (by rw [e]; exact hB)
  rw [e] at h
  exact h

/-- Witness of C2 (amended): two reads, of 3 segments (8704 bytes) and of 1 segment
(4096 bytes), on the state with zero counters. -/
theorem dmp_map_seq_average_witness :
    header_state.wf ∧
    ∃ s2, dmp_map_seq header_state
        [⟨REQ_OP_READ, false, [4096, 4096, 512]⟩, ⟨REQ_OP_READ, false, [4096]⟩] = some s2 ∧
      s2.reqs IoClass.Read = 4 ∧
      s2.avg_size IoClass.Read ≤ 12800 / 4 ∧
      12800 / 4 ≤ s2.avg_size IoClass.Read + (2 - 1) :=
  ⟨header_state_wf,
    dmp_map_seq_average IoClass.Read header_state
      [⟨REQ_OP_READ, false, [4096, 4096, 512]⟩, ⟨REQ_OP_READ, false, [4096]⟩]
      header_state_wf rfl rfl (by decide) (by decide) (by simp) (by decide) (by decide)⟩

/-- C2, counterexample: after a read of 3 segments totalling 8704 bytes and a read of
1 segment of 4096 bytes on the freshly initialised state, the stored read average is
3199, while `(8704 + 4096) / (3 + 1) = 3200`. -/
theorem dmp_map_seq_average_counterexample :
    ((sysfs_stat_init sysfs_ok).bind fun r =>
        dmp_map_seq r.1
          [⟨REQ_OP_READ, false, [4096, 4096, 512]⟩, ⟨REQ_OP_READ, false, [4096]⟩]).map
      (fun s => s.read_avg_size) = some 3199 ∧
    (8704 + 4096) / (3 + 1) = 3200 ∧
    (⟨REQ_OP_READ, false, [4096, 4096, 512]⟩ : Bio).segs.sum = 8704 ∧
    (⟨REQ_OP_READ, false, [4096]⟩ : Bio).segs.sum = 4096 ∧
    Bio.wf ⟨REQ_OP_READ, false, [4096, 4096, 512]⟩ ∧ Bio.wf ⟨REQ_OP_READ, false, [4096]⟩ := by
  refine ⟨?_, by decide, by decide, by decide, by decide, by decide⟩
  obtain ⟨s0, h0, hwf0, -, r0, a0, -, -, -⟩ := sysfs_stat_init_ok
  obtain ⟨s1, h1, hwf1, r1, a1, -⟩ := dmp_map_of_cls s0
    ⟨REQ_OP_READ, false, [4096, 4096, 512]⟩ IoClass.Read hwf0 (by decide)
    (by show (s0.read_reqs + _) % 2 ^ 64 ≠ 0; rw [r0]; decide)
  have r1n : s1.read_reqs = 3 := by
    have : s1.read_reqs = (s0.read_reqs + _) % 2 ^ 64 := r1
    rw [this, r0]; decide
  have a1n : s1.read_avg_size = 2901 := by
    have : s1.read_avg_size = ((s0.read_avg_size * s0.read_reqs) % 2 ^ 64 + _) % 2 ^ 64
        / ((s0.read_reqs + _) % 2 ^ 64) := a1
    rw [this, r0, a0]; decide
  obtain ⟨s2, h2, -, -, a2, -⟩ := dmp_map_of_cls s1
    ⟨REQ_OP_READ, false, [4096]⟩ IoClass.Read hwf1 (by decide)
    (by show (s1.read_reqs + _) % 2 ^ 64 ≠ 0; rw [r1n]; decide)
  have a2n : s2.read_avg_size = 3199 := by
    have : s2.read_avg_size = ((s1.read_avg_size * s1.read_reqs) % 2 ^ 64 + _) % 2 ^ 64
        / ((s1.read_reqs + _) % 2 ^ 64) := a2
    rw [this, r1n, a1n]; decide
  rw [h0]
  simp only [Option.some_bind, dmp_map_seq, h1, h2, Option.map_some', a2n]

/-! ## Classification of a bio by `dmp_map` -/

/-- The call returns `DM_MAPIO_KILL` exactly for the bios outside both classes. -/
theorem dmp_map_kill_iff (s : State) (bio : Bio) :
    (∃ s2, dmp_map s bio = some (s2, DM_MAPIO_KILL)) ↔
      ((bio.op ≠ REQ_OP_READ ∧ bio.op ≠ REQ_OP_WRITE) ∨
        (bio.op = REQ_OP_READ ∧ bio.rahead = true)) := by
  constructor
  · rintro ⟨s2, h⟩
    rcases dmp_map_result s s2 bio _ h with ⟨hn, -, -⟩ | ⟨c, -, hr, -⟩
    · rcases cls_none bio hn with h1 | h1
      · exact Or.inr h1
      · exact Or.inl h1
    · exact absurd hr (by decide)
  · intro h
    refine ⟨s, dmp_map_of_cls_none s bio ?_⟩
    unfold Bio.cls
    rcases h with ⟨h1, h2⟩ | ⟨h1, h2⟩
    · rw [if_neg h1, if_neg h2]
    · rw [if_pos h1, if_pos h2]

/-- The call returns `DM_MAPIO_SUBMITTED` exactly for the bios of a class whose new
count is not zero, provided the state is well-formed. -/
theorem dmp_map_submitted_iff (s : State) (bio : Bio) (hwf : s.wf) :
    (∃ s2, dmp_map s bio = some (s2, DM_MAPIO_SUBMITTED)) ↔
      ∃ c, bio.cls = some c ∧ (s.reqs c + bio.nsegs) % 2 ^ 64 ≠ 0 := by
  constructor
  · rintro ⟨s2, h⟩
    rcases dmp_map_result s s2 bio _ h with ⟨-, -, hr⟩ | ⟨c, hc, -, hnz, -⟩
    · exact absurd hr (by decide)
    · exact ⟨c, hc, hnz⟩
  · rintro ⟨c, hc, hnz⟩
    obtain ⟨s2, h, -⟩ := dmp_map_of_cls s bio c hwf hc hnz
    exact ⟨s2, h⟩

/-- C3, failing input: on the freshly initialised state a read without the
read-ahead flag whose segment list is empty is a bio `dmp_map` should submit, yet the
call divides by `read_reqs + segs = 0` and returns nothing. -/
theorem dmp_map_empty_read_no_result :
    Bio.cls ⟨REQ_OP_READ, false, []⟩ = some IoClass.Read ∧
    ((sysfs_stat_init sysfs_ok).bind fun r => dmp_map r.1 ⟨REQ_OP_READ, false, []⟩) = none := by
  refine ⟨by decide, ?_⟩
  obtain ⟨s0, h0, -, -, r0, -⟩ := sysfs_stat_init_ok
  rw [h0, Option.some_bind]
  refine dmp_map_of_zero_divisor s0 _ IoClass.Read (by decide) ?_
  show (s0.read_reqs + _) % 2 ^ 64 = 0
  rw [r0]; decide

/-- C4: whenever `dmp_map` returns `DM_MAPIO_KILL`, the state after the call (the four
counters and every byte of `stat_buf`) is the state before it. -/
theorem dmp_map_kill_frame (s s2 : State) (bio : Bio)
    (h : dmp_map s bio = some (s2, DM_MAPIO_KILL)) :
    s2 = s ∧ s2.read_reqs = s.read_reqs ∧ s2.read_avg_size = s.read_avg_size ∧
      s2.write_reqs = s.write_reqs ∧ s2.write_avg_size = s.write_avg_size ∧
      s2.stat_buf = s.stat_buf := by
  rcases dmp_map_result s s2 bio _ h with ⟨-, he, -⟩ | ⟨c, -, hr, -⟩
  · subst he; exact ⟨rfl, rfl, rfl, rfl, rfl, rfl⟩
  · exact absurd hr (by decide)

/-- Witness of C4: a read-ahead read of one 4096-byte segment is refused and leaves the
state alone, although the same read without the flag is counted; a discard of the same
shape is refused as well. -/
theorem dmp_map_kill_frame_witness :
    dmp_map header_state ⟨REQ_OP_READ, true, [4096]⟩ = some (header_state, DM_MAPIO_KILL) ∧
    (header_state = header_state ∧ header_state.read_reqs = header_state.read_reqs ∧
      header_state.read_avg_size = header_state.read_avg_size ∧
      header_state.write_reqs = header_state.write_reqs ∧
      header_state.write_avg_size = header_state.write_avg_size ∧
      header_state.stat_buf = header_state.stat_buf) ∧
    (dmp_map header_state ⟨REQ_OP_READ, false, [4096]⟩).map (fun r => r.1.read_reqs)
      = some 1 ∧
    dmp_map header_state ⟨REQ_OP_DISCARD, false, [4096]⟩
      = some (header_state, DM_MAPIO_KILL) := by
  refine ⟨dmp_map_of_cls_none _ _ (by decide),
    dmp_map_kill_frame header_state header_state ⟨REQ_OP_READ, true, [4096]⟩
      (dmp_map_of_cls_none _ _ (by decide)), ?_, dmp_map_of_cls_none _ _ (by decide)⟩
  obtain ⟨s1, h1, -, r1, -⟩ := dmp_map_of_cls header_state
    ⟨REQ_OP_READ, false, [4096]⟩ IoClass.Read header_state_wf (by decide) (by decide)
  rw [h1]
  exact congrArg some r1

/-- C8, failing input: on the freshly initialised state a write whose segment list is
empty makes `dmp_map` divide by `write_reqs + segs = 0`; the call has no result, so
the write average is not set to 0 and nothing is returned. -/
theorem dmp_map_empty_write_divides_by_zero :
    ((sysfs_stat_init sysfs_ok).bind fun r => dmp_map r.1 ⟨REQ_OP_WRITE, false, []⟩) = none ∧
    udiv64 (((0 * 0) % 2 ^ 64 + Bio.len ⟨REQ_OP_WRITE, false, []⟩) % 2 ^ 64)
      ((0 + Bio.nsegs ⟨REQ_OP_WRITE, false, []⟩) % 2 ^ 64) = none := by
  refine ⟨?_, by decide⟩
  obtain ⟨s0, h0, -, -, -, -, w0, -⟩ := sysfs_stat_init_ok
  rw [h0, Option.some_bind]
  refine dmp_map_of_zero_divisor s0 _ IoClass.Write (by decide) ?_
  show (s0.write_reqs + _) % 2 ^ 64 = 0
  rw [w0]; decide

/-! ## What the segment walk hands to the update -/

/-- C9: for every bio that `dmp_map` submits, the class's request counter grows by the
number of segments of the bio (64-bit addition), not by one; and on the freshly
initialised state one read of 2 segments totalling 4096 bytes is submitted and
leaves `read_reqs = 2`, `read_avg_size = 2048`, `write_reqs = 0`, `write_avg_size = 0`. -/
theorem dmp_map_counts_segments (s s2 : State) (bio : Bio) (c : IoClass)
    (hc : bio.cls = some c) (h : dmp_map s bio = some (s2, DM_MAPIO_SUBMITTED)) :
    s2.reqs c = (s.reqs c + bio.segs.length) % 2 ^ 64 ∧
    ((sysfs_stat_init sysfs_ok).bind fun r =>
        dmp_map r.1 ⟨REQ_OP_READ, false, [2048, 2048]⟩).map
        (fun r => (r.1.read_reqs, r.1.read_avg_size, r.1.write_reqs, r.1.write_avg_size, r.2))
      = some (2, 2048, 0, 0, DM_MAPIO_SUBMITTED) := by
  constructor
  · rcases dmp_map_result s s2 bio _ h with ⟨hn, -, -⟩ | ⟨d, hd, -, -, hr, -⟩
    · rw [hn] at hc; cases hc
    · rw [hc] at hd; cases hd
      rw [hr, add_nsegs_mod]
  · obtain ⟨s0, h0, hwf0, -, r0, a0, w0, wa0, -⟩ := sysfs_stat_init_ok
    obtain ⟨s1, h1, -, r1, a1, hoth, -⟩ := dmp_map_of_cls s0
      ⟨REQ_OP_READ, false, [2048, 2048]⟩ IoClass.Read hwf0 (by decide)
      (by show (s0.read_reqs + _) % 2 ^ 64 ≠ 0; rw [r0]; decide)
    have r1n : s1.read_reqs = 2 := by
      have : s1.read_reqs = (s0.read_reqs + _) % 2 ^ 64 := r1
      rw [this, r0]; decide
    have a1n : s1.read_avg_size = 2048 := by
      have : s1.read_avg_size = ((s0.read_avg_size * s0.read_reqs) % 2 ^ 64 + _) % 2 ^ 64
          / ((s0.read_reqs + _) % 2 ^ 64) := a1
      rw [this, r0, a0]; decide
    obtain ⟨w1, wa1⟩ := hoth IoClass.Write (by decide)
    have w1n : s1.write_reqs = 0 := by
      have : s1.write_reqs = s0.write_reqs := w1
      rw [this, w0]
    have wa1n : s1.write_avg_size = 0 := by
      have : s1.write_avg_size = s0.write_avg_size := wa1
      rw [this, wa0]
    rw [h0, Option.some_bind, h1]
    simp only [Option.map_some', r1n, a1n, w1n, wa1n]

/-- Witness of C9: a write of three segments on the state with zero counters raises
`write_reqs` by 3. -/
theorem dmp_map_counts_segments_witness :
    ∃ s2, dmp_map header_state ⟨REQ_OP_WRITE, false, [512, 512, 512]⟩
        = some (s2, DM_MAPIO_SUBMITTED) ∧
      s2.reqs IoClass.Write = (0 + 3) % 2 ^ 64 := by
  obtain ⟨s2, h, -⟩ := dmp_map_of_cls header_state
    ⟨REQ_OP_WRITE, false, [512, 512, 512]⟩ IoClass.Write header_state_wf (by decide)
    (by decide)
  exact ⟨s2, h, (dmp_map_counts_segments header_state s2
    ⟨REQ_OP_WRITE, false, [512, 512, 512]⟩ IoClass.Write (by decide) h).1⟩

/-- C10: for every bio that `dmp_map` submits and whose segment lengths total a 32-bit
size, as those of every bio do, the byte total that enters the running-average update
is the sum of the lengths of all its segments, taken as a 64-bit quantity: `len` equals
that sum and the new average is computed from it. -/
theorem dmp_map_byte_total (s s2 : State) (bio : Bio) (c : IoClass)
    (hbio : bio.wf) (hc : bio.cls = some c)
    (h : dmp_map s bio = some (s2, DM_MAPIO_SUBMITTED)) :
    bio.len = bio.segs.sum ∧
    s2.avg_size c = ((s.avg_size c * s.reqs c) % 2 ^ 64 + bio.segs.sum) % 2 ^ 64
                      / ((s.reqs c + bio.segs.length) % 2 ^ 64) := by
  refine ⟨len_of_wf bio hbio, ?_⟩
  rcases dmp_map_result s s2 bio _ h with ⟨hn, -, -⟩ | ⟨d, hd, -, -, -, ha, -⟩
  · rw [hn] at hc; cases hc
  · rw [hc] at hd; cases hd
    rw [ha, add_nsegs_mod, len_of_wf bio hbio]

/-- Witness of C10: a read of two 2048-byte segments on the state with zero counters. -/
theorem dmp_map_byte_total_witness :
    Bio.wf ⟨REQ_OP_READ, false, [2048, 2048]⟩ ∧
    ∃ s2, dmp_map header_state ⟨REQ_OP_READ, false, [2048, 2048]⟩
        = some (s2, DM_MAPIO_SUBMITTED) ∧
      Bio.len ⟨REQ_OP_READ, false, [2048, 2048]⟩ = 4096 ∧
      s2.avg_size IoClass.Read = ((0 * 0) % 2 ^ 64 + 4096) % 2 ^ 64 / ((0 + 2) % 2 ^ 64) := by
  refine ⟨by decide, ?_⟩
  obtain ⟨s2, h, -⟩ := dmp_map_of_cls header_state
    ⟨REQ_OP_READ, false, [2048, 2048]⟩ IoClass.Read header_state_wf (by decide) (by decide)
  obtain ⟨g1, g2⟩ := dmp_map_byte_total header_state s2
    ⟨REQ_OP_READ, false, [2048, 2048]⟩ IoClass.Read (by decide) (by decide) h
  exact ⟨s2, h, g1, g2⟩

/-! ## The rendered report -/

theorem fmt_llu_eq_repr (n : Nat) : String.mk (fmt_llu n) = toString n := rfl

theorem counters_u64_mk (a b c d : Nat) (buf : List Char)
    (ha : a < 2 ^ 64) (hb : b < 2 ^ 64) (hc : c < 2 ^ 64) (hd : d < 2 ^ 64) :
    counters_u64 ⟨a, b, c, d, buf⟩ := ⟨ha, hb, hc, hd⟩

theorem length_header_append (c : Char) :
    (stat_header ++ List.replicate (PAGE_SIZE - 1 - 13) c).length = PAGE_SIZE - 1 := by
  rw [List.length_append, List.length_replicate]; decide

theorem take_header_append (c : Char) :
    (stat_header ++ List.replicate (PAGE_SIZE - 1 - 13) c).take 13 = stat_header :=
  List.take_left' (by decide)

/-- C5: for every value of the four 64-bit counters and every content of the
4095-byte buffer that starts with the header `"read:\n reqs: "`, `save_to_buf` returns
and the NUL-terminated text then held in `stat_buf` is exactly the layout of the
specification, every number in plain decimal; whatever the buffer held after the
header before the call leaves no trace in the text. -/
theorem save_to_buf_layout (s : State) (hc : counters_u64 s)
    (hlen : s.stat_buf.length = PAGE_SIZE - 1) (hh : has_header s) :
    ∃ buf, save_to_buf s = some { s with stat_buf := buf } ∧
      cstr buf =
        "read:\n reqs: ".toList ++ fmt_llu s.read_reqs ++
        "\n avg size: ".toList ++ fmt_llu s.read_avg_size ++
        "\nwrite:\n reqs: ".toList ++ fmt_llu s.write_reqs ++
        "\n avg size: ".toList ++ fmt_llu s.write_avg_size ++
        "\ntotal:\n reqs: ".toList ++ fmt_llu (total_reqs s) ++
        "\n avg size: ".toList ++ fmt_llu (total_avg_size s) ++ "\n".toList ∧
      String.mk (cstr buf) =
        "read:\n reqs: " ++ toString s.read_reqs ++
        "\n avg size: " ++ toString s.read_avg_size ++
        "\nwrite:\n reqs: " ++ toString s.write_reqs ++
        "\n avg size: " ++ toString s.write_avg_size ++
        "\ntotal:\n reqs: " ++ toString (total_reqs s) ++
        "\n avg size: " ++ toString (total_avg_size s) ++ "\n" := by
  obtain ⟨buf, hs, -, -, -, hr⟩ := save_to_buf_ok s hc (by rw [hlen]; decide)
  refine ⟨buf, hs, hr hh, ?_⟩
  rw [hr hh]
  rfl

/-- Witness of C5: counters 2, 2048, 1, 1024 and a buffer that holds the header
followed by 4082 bytes `x` left from earlier; the text is the report of scenario B. -/
theorem save_to_buf_layout_witness :
    (save_to_buf ⟨2, 2048, 1, 1024,
        stat_header ++ List.replicate (PAGE_SIZE - 1 - 13) (Char.ofNat 120)⟩).map
      (fun s => String.mk (cstr s.stat_buf))
    = some ("read:\n reqs: 2\n avg size: 2048\nwrite:\n reqs: 1\n avg size: 1024\n" ++
            "total:\n reqs: 3\n avg size: 1706\n") := by
  obtain ⟨buf, hs, -, h2⟩ := save_to_buf_layout
    ⟨2, 2048, 1, 1024, stat_header ++ List.replicate (PAGE_SIZE - 1 - 13) (Char.ofNat 120)⟩
    (counters_u64_mk _ _ _ _ _ (by decide) (by decide) (by decide) (by decide))
    (length_header_append _) (take_header_append _)
  rw [hs]
  simp only [Option.map_some']
  rw [h2]
  decide

/-- C6: for all values of the four 64-bit counters and a buffer of `PAGE_SIZE - 1 = 4095`
bytes, all six `sprintf` calls of `save_to_buf` store every byte, terminators
included, inside the buffer (the call has a result); the text with its terminator
takes at most 201 bytes, the buffer keeps its 4095 bytes and every byte from offset
201 on is untouched. -/
theorem save_to_buf_in_bounds (s : State) (hc : counters_u64 s)
    (hlen : s.stat_buf.length = PAGE_SIZE - 1) :
    ∃ buf, save_to_buf s = some { s with stat_buf := buf } ∧
      buf.length = PAGE_SIZE - 1 ∧
      (report s).length + 1 ≤ 201 ∧ 201 ≤ PAGE_SIZE - 1 ∧ PAGE_SIZE - 1 = 4095 ∧
      buf.drop 201 = s.stat_buf.drop 201 := by
  obtain ⟨buf, hs, hl, -, hd, -⟩ := save_to_buf_ok s hc (by rw [hlen]; decide)
  have hle := report_length_le s hc
  exact ⟨buf, hs, hl.trans hlen, by omega, by decide, by decide, hd⟩

/-- Witness of C6: all four counters at the maximum `2 ^ 64 - 1`. -/
theorem save_to_buf_in_bounds_witness :
    counters_u64 ⟨2 ^ 64 - 1, 2 ^ 64 - 1, 2 ^ 64 - 1, 2 ^ 64 - 1,
        List.replicate (PAGE_SIZE - 1) NUL⟩ ∧
    ∃ buf, save_to_buf ⟨2 ^ 64 - 1, 2 ^ 64 - 1, 2 ^ 64 - 1, 2 ^ 64 - 1,
          List.replicate (PAGE_SIZE - 1) NUL⟩
        = some ⟨2 ^ 64 - 1, 2 ^ 64 - 1, 2 ^ 64 - 1, 2 ^ 64 - 1, buf⟩ ∧
      buf.length = PAGE_SIZE - 1 :=
  ⟨counters_u64_mk _ _ _ _ _ (by decide) (by decide) (by decide) (by decide),
    (save_to_buf_in_bounds
      ⟨2 ^ 64 - 1, 2 ^ 64 - 1, 2 ^ 64 - 1, 2 ^ 64 - 1, List.replicate (PAGE_SIZE - 1) NUL⟩
      (counters_u64_mk _ _ _ _ _ (by decide) (by decide) (by decide) (by decide))
      (List.length_replicate _ _)).imp fun _ h => ⟨h.1, h.2.1⟩⟩

/-- C7: for every state of 64-bit counters whose buffer starts with the header, the
text that `save_to_buf` renders ends with the total section showing
`totalUnits = read_reqs + write_reqs` and, when `totalUnits > 0`,
`totalAvgSize = (read_avg_size * read_reqs + write_avg_size * write_reqs) / totalUnits`
(64-bit arithmetic, truncating division), and `totalAvgSize = 0` when `totalUnits = 0`;
where the sums do not exceed 64 bits these are the plain sum and quotient; counters
2, 2048, 1, 1024 give 3 and 1706. -/
theorem save_to_buf_total_section (s : State) (hc : counters_u64 s)
    (hlen : s.stat_buf.length = PAGE_SIZE - 1) (hh : has_header s) :
    ∃ buf totalUnits totalAvgSize,
      save_to_buf s = some { s with stat_buf := buf } ∧
      cstr buf =
        ("read:\n reqs: ".toList ++ fmt_llu s.read_reqs ++
         "\n avg size: ".toList ++ fmt_llu s.read_avg_size ++
         "\nwrite:\n reqs: ".toList ++ fmt_llu s.write_reqs ++
         "\n avg size: ".toList ++ fmt_llu s.write_avg_size) ++
        ("\ntotal:\n reqs: ".toList ++ fmt_llu totalUnits ++
         "\n avg size: ".toList ++ fmt_llu totalAvgSize ++ "\n".toList) ∧
      totalUnits = (s.read_reqs + s.write_reqs) % 2 ^ 64 ∧
      (0 < totalUnits →
        totalAvgSize
          = (s.read_avg_size * s.read_reqs + s.write_avg_size * s.write_reqs) % 2 ^ 64
              / totalUnits) ∧
      (totalUnits = 0 → totalAvgSize = 0) ∧
      (s.read_reqs + s.write_reqs < 2 ^ 64 → totalUnits = s.read_reqs + s.write_reqs) ∧
      (s.read_avg_size * s.read_reqs + s.write_avg_size * s.write_reqs < 2 ^ 64 →
        0 < totalUnits →
        totalAvgSize
          = (s.read_avg_size * s.read_reqs + s.write_avg_size * s.write_reqs) / totalUnits) ∧
      (total_reqs ⟨2, 2048, 1, 1024, []⟩ = 3 ∧
        total_avg_size ⟨2, 2048, 1, 1024, []⟩ = 1706) := by
  obtain ⟨buf, hs, -, -, -, hr⟩ := save_to_buf_ok s hc (by rw [hlen]; decide)
  have hpos : 0 < total_reqs s →
      total_avg_size s
        = (s.read_avg_size * s.read_reqs + s.write_avg_size * s.write_reqs) % 2 ^ 64
            / total_reqs s := by
    intro hpos
    have hne : total_reqs s ≠ 0 := by omega
    unfold total_avg_size
    rw [if_neg hne, ← Nat.add_mod]
  refine ⟨buf, total_reqs s, total_avg_size s, hs, ?_, rfl, hpos, ?_, ?_, ?_,
    ⟨by decide, by decide⟩⟩
  · rw [hr hh]
    simp only [report, format, List.append_assoc]
  · intro hz
    unfold total_avg_size
    rw [if_pos hz]
  · intro hlt
    exact Nat.mod_eq_of_lt hlt
  · intro hlt h0
    rw [hpos h0, Nat.mod_eq_of_lt hlt]

/-- Witness of C7: the state with zero counters renders total count 0 and total
average 0. -/
theorem save_to_buf_total_section_witness :
    (save_to_buf header_state).map (fun s => String.mk (cstr s.stat_buf))
    = some ("read:\n reqs: 0\n avg size: 0\nwrite:\n reqs: 0\n avg size: 0\n" ++
            "total:\n reqs: 0\n avg size: 0\n") := by
  obtain ⟨buf, tu, ta, hs, ht, htu, -, hz, -, -, -⟩ := save_to_buf_total_section header_state
    header_state_wf.1 header_state_wf.2 header_state_has_header
  have htu0 : tu = 0 := htu
  have hta0 : ta = 0 := hz htu0
  subst htu0 hta0
  rw [hs]
  simp only [Option.map_some']
  rw [ht]
  decide

/-! ## Statistics are kept per class -/

/-- C11: for every counter state, a read that `dmp_map` submits leaves `write_reqs` and
`write_avg_size` unchanged and a write that it submits leaves `read_reqs` and
`read_avg_size` unchanged; in scenario B (after the read of 2 segments totalling 4096
bytes, a write of 1 segment of 1024 bytes) the counters are 2, 2048, 1, 1024. -/
theorem dmp_map_other_class_frame (s s2 : State) (bio : Bio)
    (h : dmp_map s bio = some (s2, DM_MAPIO_SUBMITTED)) :
    (bio.op = REQ_OP_READ →
      s2.write_reqs = s.write_reqs ∧ s2.write_avg_size = s.write_avg_size) ∧
    (bio.op = REQ_OP_WRITE →
      s2.read_reqs = s.read_reqs ∧ s2.read_avg_size = s.read_avg_size) ∧
    ((sysfs_stat_init sysfs_ok).bind fun r =>
        dmp_map_seq r.1
          [⟨REQ_OP_READ, false, [2048, 2048]⟩, ⟨REQ_OP_WRITE, false, [1024]⟩]).map
      (fun t => (t.read_reqs, t.read_avg_size, t.write_reqs, t.write_avg_size))
      = some (2, 2048, 1, 1024) := by
  refine ⟨?_, ?_, ?_⟩
  · intro hop
    rcases dmp_map_result s s2 bio _ h with ⟨-, -, hr⟩ | ⟨c, hc, -, -, -, -, hoth⟩
    · exact absurd hr (by decide)
    · cases c with
      | Read => exact hoth IoClass.Write (by decide)
      | Write => exact absurd hop (cls_write bio hc).1
  · intro hop
    rcases dmp_map_result s s2 bio _ h with ⟨-, -, hr⟩ | ⟨c, hc, -, -, -, -, hoth⟩
    · exact absurd hr (by decide)
    · cases c with
      | Read =>
        have h1 := (cls_read bio hc).1
        rw [hop] at h1
        exact absurd h1 (by decide)
      | Write => exact hoth IoClass.Read (by decide)
  · obtain ⟨s0, h0, hwf0, -, r0, a0, w0, wa0, -⟩ := sysfs_stat_init_ok
    obtain ⟨s1, h1, hwf1, r1, a1, hoth1, -⟩ := dmp_map_of_cls s0
      ⟨REQ_OP_READ, false, [2048, 2048]⟩ IoClass.Read hwf0 (by decide)
      (by show (s0.read_reqs + _) % 2 ^ 64 ≠ 0; rw [r0]; decide)
    have r1n : s1.read_reqs = 2 := by
      have : s1.read_reqs = (s0.read_reqs + _) % 2 ^ 64 := r1
      rw [this, r0]; decide
    have a1n : s1.read_avg_size = 2048 := by
      have : s1.read_avg_size = ((s0.read_avg_size * s0.read_reqs) % 2 ^ 64 + _) % 2 ^ 64
          / ((s0.read_reqs + _) % 2 ^ 64) := a1
      rw [this, r0, a0]; decide
    obtain ⟨w1, wa1⟩ := hoth1 IoClass.Write (by decide)
    have w1n : s1.write_reqs = 0 := by
      have : s1.write_reqs = s0.write_reqs := w1
      rw [this, w0]
    have wa1n : s1.write_avg_size = 0 := by
      have : s1.write_avg_size = s0.write_avg_size := wa1
      rw [this, wa0]
    obtain ⟨s2, h2, -, r2, a2, hoth2, -⟩ := dmp_map_of_cls s1
      ⟨REQ_OP_WRITE, false, [1024]⟩ IoClass.Write hwf1 (by decide)
      (by show (s1.write_reqs + _) % 2 ^ 64 ≠ 0; rw [w1n]; decide)
    have w2n : s2.write_reqs = 1 := by
      have : s2.write_reqs = (s1.write_reqs + _) % 2 ^ 64 := r2
      rw [this, w1n]; decide
    have wa2n : s2.write_avg_size = 1024 := by
      have : s2.write_avg_size = ((s1.write_avg_size * s1.write_reqs) % 2 ^ 64 + _) % 2 ^ 64
          / ((s1.write_reqs + _) % 2 ^ 64) := a2
      rw [this, w1n, wa1n]; decide
    obtain ⟨r2', a2'⟩ := hoth2 IoClass.Read (by decide)
    have r2n : s2.read_reqs = 2 := by
      have : s2.read_reqs = s1.read_reqs := r2'
      rw [this, r1n]
    have a2n : s2.read_avg_size = 2048 := by
      have : s2.read_avg_size = s1.read_avg_size := a2'
      rw [this, a1n]
    rw [h0]
    simp only [Option.some_bind, dmp_map_seq, h1, h2, Option.map_some', r2n, a2n, w2n, wa2n]

/-- Witness of C11: a write of one 1024-byte segment on the state with zero counters
leaves the read counters at zero. -/
theorem dmp_map_other_class_frame_witness :
    ∃ s2, dmp_map header_state ⟨REQ_OP_WRITE, false, [1024]⟩
        = some (s2, DM_MAPIO_SUBMITTED) ∧
      s2.read_reqs = 0 ∧ s2.read_avg_size = 0 := by
  obtain ⟨s2, h, -⟩ := dmp_map_of_cls header_state
    ⟨REQ_OP_WRITE, false, [1024]⟩ IoClass.Write header_state_wf (by decide) (by decide)
  exact ⟨s2, h, (dmp_map_other_class_frame header_state s2
    ⟨REQ_OP_WRITE, false, [1024]⟩ h).2.1 rfl⟩

/-! ## The constructor -/

/-- C12: for every argument count other than 1, `dmp_ctr` returns `-EINVAL` with the
message "One argument required"; `ti->private` is not set, `dm_get_device` is not
called, nothing is allocated and the statistics state is unchanged.  With exactly one
argument `dmp_ctr` returns what `dmp_get_args` returns. -/
theorem dmp_ctr_argument_count (host : Host) (k : Kernel) (argc : Nat) (argv : List String)
    (h : argc ≠ 1) :
    ∃ k2, dmp_ctr host k argc argv = some (k2, -22) ∧
      k2.ti.error = "One argument required" ∧
      k2.ti.priv = k.ti.priv ∧ k2.lookups = k.lookups ∧ k2.allocated = k.allocated ∧
      k2.stats = k.stats ∧
      dmp_ctr host k 1 argv = dmp_get_args host k 1 argv := by
  refine ⟨{ k with ti := { k.ti with error := "One argument required" } }, ?_,
    rfl, rfl, rfl, rfl, rfl, ?_⟩
  · unfold dmp_ctr
    rw [if_neg h]
    rfl
  · unfold dmp_ctr
    rw [if_pos rfl]
    cases hg : dmp_get_args host k 1 argv with
    | none => rfl
    | some r =>
      obtain ⟨k1, ret⟩ := r
      rw [Option.some_bind]
      by_cases hret : ret ≠ 0
      · rw [if_pos hret]
      · rw [if_neg hret]
        have : ret = 0 := not_not.1 hret
        rw [this]

/-- Witness of C12: two arguments, and for comparison one argument that resolves to
device 7. -/
theorem dmp_ctr_argument_count_witness :
    (∃ k2, dmp_ctr ⟨true, fun _ => (0, 7)⟩ ⟨header_state, ⟨"", none⟩, [], 0⟩ 2
          ["/dev/sda", "0"] = some (k2, -22) ∧
        k2.ti.priv = none ∧ k2.lookups = [] ∧ k2.stats = header_state) ∧
    (dmp_ctr ⟨true, fun _ => (0, 7)⟩ ⟨header_state, ⟨"", none⟩, [], 0⟩ 1 ["/dev/sda"]).map
        (fun r => (r.1.ti.priv, r.1.lookups, r.2))
      = some (some ⟨7, 0⟩, ["/dev/sda"], 0) := by
  constructor
  · obtain ⟨k2, h1, -, h2, h3, -, h4, -⟩ := dmp_ctr_argument_count
      ⟨true, fun _ => (0, 7)⟩ ⟨header_state, ⟨"", none⟩, [], 0⟩ 2 ["/dev/sda", "0"]
      (by decide)
    exact ⟨k2, h1, h2, h3, h4⟩
  · rfl

/-! ## The buffer always holds the current report -/

theorem dmp_map_seq_report (bios : List Bio) :
    ∀ (s s2 : State), s.wf → has_header s → cstr s.stat_buf = report s →
      dmp_map_seq s bios = some s2 →
      s2.wf ∧ has_header s2 ∧ cstr s2.stat_buf = report s2 := by
  induction bios with
  | nil =>
    intro s s2 hwf hh hr hrun
    cases hrun
    exact ⟨hwf, hh, hr⟩
  | cons bio rest ih =>
    intro s s2 hwf hh hr hrun
    have hrun2 : (dmp_map s bio).bind (fun r => dmp_map_seq r.1 rest) = some s2 := hrun
    cases hm : dmp_map s bio with
    | none => rw [hm] at hrun2; cases hrun2
    | some r =>
      rw [hm] at hrun2
      have hseq : dmp_map_seq r.1 rest = some s2 := hrun2
      obtain ⟨s1, code⟩ := r
      rcases dmp_map_result s s1 bio code hm with ⟨-, he, -⟩ | ⟨c, hc, -, hnz, -⟩
      · subst he
        exact ih s1 s2 hwf hh hr hseq
      · obtain ⟨t, ht, hwft, -, -, -, htake, -, hrep⟩ := dmp_map_of_cls s bio c hwf hc hnz
        rw [hm] at ht
        cases ht
        exact ih s1 s2 hwft (htake.trans hh) (hrep hh) hseq

theorem dmp_run_report (bios : List Bio) (s : State) (h : dmp_run bios = some s) :
    s.wf ∧ has_header s ∧ cstr s.stat_buf = report s := by
  obtain ⟨s0, h0, hwf0, hh0, -, -, -, -, hr0⟩ := sysfs_stat_init_ok
  unfold dmp_run at h
  rw [h0, Option.some_bind] at h
  exact dmp_map_seq_report bios s0 s hwf0 hh0 hr0 h

/-- On the path on which `sysfs_stat_init` succeeds: in every state reached from it by
any sequence of `dmp_map` calls, submitted or refused in any order, the NUL-terminated
text in `stat_buf` is the rendering of the current values of the four counters; the
buffer still starts with the 13-byte header and has its 4095 bytes. -/
theorem stat_buf_always_current (bios : List Bio) (s : State)
    (h : dmp_run bios = some s) :
    cstr s.stat_buf = report s ∧
    String.mk (cstr s.stat_buf) =
      "read:\n reqs: " ++ toString s.read_reqs ++
      "\n avg size: " ++ toString s.read_avg_size ++
      "\nwrite:\n reqs: " ++ toString s.write_reqs ++
      "\n avg size: " ++ toString s.write_avg_size ++
      "\ntotal:\n reqs: " ++ toString (total_reqs s) ++
      "\n avg size: " ++ toString (total_avg_size s) ++ "\n" ∧
    s.stat_buf.take 13 = "read:\n reqs: ".toList ∧
    s.stat_buf.length = PAGE_SIZE - 1 := by
  obtain ⟨hwf, hh, hr⟩ := dmp_run_report bios s h
  refine ⟨hr, ?_, hh, hwf.2⟩
  rw [hr]
  rfl

/-! ## The status read -/

theorem report_counters (s t : State) (h1 : s.read_reqs = t.read_reqs)
    (h2 : s.read_avg_size = t.read_avg_size) (h3 : s.write_reqs = t.write_reqs)
    (h4 : s.write_avg_size = t.write_avg_size) : report s = report t := by
  simp only [report, total_reqs, total_avg_size, h1, h2, h3, h4]

/-- What `stat_show` hands back when `stat_buf` holds the current report. -/
theorem stat_show_of_report (s : State) (buf : List Char) (hwf : s.wf)
    (hr : cstr s.stat_buf = report s) (hbuf : buf.length = PAGE_SIZE) :
    stat_show s buf
      = some (report s ++ List.replicate (PAGE_SIZE - 1 - (report s).length) NUL
                ++ buf.drop (PAGE_SIZE - 1), (PAGE_SIZE : Int) - 1) := by
  have htake : s.stat_buf.take (PAGE_SIZE - 1) = s.stat_buf :=
    List.take_of_length_le (le_of_eq hwf.2)
  have htext : (s.stat_buf.take (PAGE_SIZE - 1)).takeWhile (fun c => c ≠ NUL) = report s := by
    rw [htake]; exact hr
  have hcond : PAGE_SIZE - 1 ≤ buf.length ∧
      ((report s).length < PAGE_SIZE - 1 → (report s).length < s.stat_buf.length) := by
    refine ⟨by rw [hbuf]; decide, fun h => by rw [hwf.2]; exact h⟩
  unfold stat_show strncpy
  simp only [htext]
  rw [if_pos hcond]
  rfl

/-- C13 (amended): in every state reached from `sysfs_stat_init` by `dmp_map` calls, a
read of the status endpoint into a page returns the length `PAGE_SIZE - 1 = 4095`,
which does not exceed one page, and the bytes handed back over that length are the
rendered report text for the current counters followed by NUL bytes up to 4095; the
NUL-terminated string they hold is exactly the report text. -/
theorem stat_show_returns_report (bios : List Bio) (s : State) (buf : List Char)
    (h : dmp_run bios = some s) (hbuf : buf.length = PAGE_SIZE) :
    ∃ out len, stat_show s buf = some (out, len) ∧
      len = 4095 ∧ len ≤ (PAGE_SIZE : Int) ∧
      out.take len.toNat
        = report s ++ List.replicate (4095 - (report s).length) NUL ∧
      (report s).length ≤ 200 ∧
      cstr (out.take len.toNat) = report s := by
  obtain ⟨hwf, -, hr⟩ := dmp_run_report bios s h
  have hle := report_length_le s hwf.1
  have hshow := stat_show_of_report s buf hwf hr hbuf
  have hlen : (report s ++ List.replicate (PAGE_SIZE - 1 - (report s).length) NUL).length
      = 4095 := by
    rw [List.length_append, List.length_replicate]
    have : PAGE_SIZE - 1 = 4095 := by decide
    omega
  have htake : (report s ++ List.replicate (PAGE_SIZE - 1 - (report s).length) NUL
      ++ buf.drop (PAGE_SIZE - 1)).take 4095
      = report s ++ List.replicate (4095 - (report s).length) NUL := by
    rw [List.take_left' hlen]
    rfl
  have h4095 : ((PAGE_SIZE : Int) - 1).toNat = 4095 := by decide
  refine ⟨_, _, hshow, by decide, by decide, ?_, hle, ?_⟩
  · rw [h4095]; exact htake
  · rw [h4095, htake]
    obtain ⟨k, hk⟩ : ∃ k, 4095 - (report s).length = k + 1 :=
      ⟨4095 - (report s).length - 1, by omega⟩
    rw [hk, List.replicate_succ]
    exact cstr_append_NUL _ _ (format_ne_NUL _ _ _ _ _ _)

/-- Witness of C13 (amended): a status read right after `sysfs_stat_init`. -/
theorem stat_show_returns_report_witness :
    ∃ s out, dmp_run [] = some s ∧
      stat_show s (List.replicate PAGE_SIZE NUL) = some (out, 4095) ∧
      cstr (out.take 4095) = report s := by
  obtain ⟨s0, h0, -⟩ := sysfs_stat_init_ok
  have hrun : dmp_run [] = some s0 := by
    unfold dmp_run
    rw [h0]
    rfl
  obtain ⟨out, len, hs, hl, -, -, -, hc⟩ := stat_show_returns_report [] s0
    (List.replicate PAGE_SIZE NUL) hrun (List.length_replicate _ _)
  subst hl
  exact ⟨s0, out, hrun, hs, hc⟩

/-- C13, counterexample: right after `sysfs_stat_init` the report text has 86
characters, but a status read returns the length 4095 and hands back 4095 bytes: the
86 characters of the text and 4009 NUL bytes after them. -/
theorem stat_show_returns_report_counterexample :
    (dmp_run []).bind (fun s =>
        (stat_show s (List.replicate PAGE_SIZE NUL)).map fun r =>
          (r.2, (r.1.take r.2.toNat).length, (report s).length,
            decide (r.1.take r.2.toNat = report s)))
      = some (4095, 4095, 86, false) := by
  obtain ⟨s0, h0, hwf0, -, r0, a0, w0, wa0, hr0⟩ := sysfs_stat_init_ok
  have hrun : dmp_run [] = some s0 := by
    unfold dmp_run
    rw [h0]
    rfl
  have hrep : report s0 = report header_state := report_counters s0 header_state r0 a0 w0 wa0
  have h86 : (report s0).length = 86 := by rw [hrep]; decide
  have hshow := stat_show_of_report s0 (List.replicate PAGE_SIZE NUL) hwf0 hr0
    (List.length_replicate _ _)
  have h4095 : ((PAGE_SIZE : Int) - 1).toNat = 4095 := by decide
  have hlen : (report s0 ++ List.replicate (PAGE_SIZE - 1 - (report s0).length) NUL).length
      = 4095 := by
    rw [List.length_append, List.length_replicate, h86]; decide
  have hd : decide (report s0 ++ List.replicate (PAGE_SIZE - 1 - (report s0).length) NUL
      = report s0) = false := by
    apply decide_eq_false
    intro he
    have := congrArg List.length he
    rw [hlen, h86] at this
    exact absurd this (by decide)
  rw [hrun, Option.some_bind, hshow]
  simp only [Option.map_some']
  rw [h4095, List.take_left' hlen, hlen, hd, h86]
  rfl

/-! ## The stored average never overestimates -/

theorem avg_between (a N b u : Nat) (hu : 0 < u) :
    min a (b / u) ≤ (a * N + b) / (N + u) ∧ (a * N + b) / (N + u) ≤ max a (b / u) := by
  have hpos : 0 < N + u := by omega
  constructor
  · rw [Nat.le_div_iff_mul_le hpos, Nat.mul_add]
    have h1 : min a (b / u) * N ≤ a * N := Nat.mul_le_mul_right N (Nat.min_le_left _ _)
    have h2 : min a (b / u) * u ≤ b :=
      (Nat.le_div_iff_mul_le hu).1 (Nat.min_le_right _ _)
    omega
  · have h : (a * N + b) / (N + u) < max a (b / u) + 1 := by
      rw [Nat.div_lt_iff_lt_mul hpos, Nat.mul_add]
      have h1 : a * N ≤ max a (b / u) * N := Nat.mul_le_mul_right N (Nat.le_max_left _ _)
      have h2 : b < (max a (b / u) + 1) * u :=
        (Nat.div_lt_iff_lt_mul hu).1 (Nat.lt_succ_of_le (Nat.le_max_right _ _))
      have h3 : (max a (b / u) + 1) * N = max a (b / u) * N + N := by
        rw [Nat.add_mul, Nat.one_mul]
      omega
    omega

/-- One submitted update without wrap-around, in plain arithmetic. -/
theorem dmp_map_step_exact (c : IoClass) (s s2 : State) (bio : Bio) (r : Int)
    (hc : bio.cls = some c) (hno : no_overflow_step c s bio)
    (h : dmp_map s bio = some (s2, r)) :
    s2.reqs c = s.reqs c + bio.segs.length ∧
    s2.avg_size c
      = (s.avg_size c * s.reqs c + bio.segs.sum) / (s.reqs c + bio.segs.length) := by
  obtain ⟨h1, h2, h3, h4⟩ := hno
  rcases dmp_map_result s s2 bio _ h with ⟨hn, -, -⟩ | ⟨d, hd, -, -, hr, ha, -⟩
  · rw [hn] at hc; cases hc
  · rw [hc] at hd; cases hd
    have e1 : (s.reqs c + bio.nsegs) % 2 ^ 64 = s.reqs c + bio.segs.length := by
      rw [add_nsegs_mod]; exact Nat.mod_eq_of_lt h4
    have e2 : bio.len = bio.segs.sum := by
      rw [len_eq]; exact Nat.mod_eq_of_lt h2
    have e3 : ((s.avg_size c * s.reqs c) % 2 ^ 64 + bio.len) % 2 ^ 64
        = s.avg_size c * s.reqs c + bio.segs.sum := by
      have hlt : s.avg_size c * s.reqs c < 2 ^ 64 := by omega
      rw [e2, Nat.mod_eq_of_lt hlt]
      exact Nat.mod_eq_of_lt h3
    rw [e1] at hr ha
    rw [e3] at ha
    exact ⟨hr, ha⟩

theorem dmp_map_seq_reached (c : IoClass) :
    ∀ (bios : List Bio) (s s2 : State) (T : Nat),
      (∀ bio ∈ bios, bio.cls = some c) → no_overflow_seq c s bios →
      s.avg_size c * s.reqs c ≤ T → dmp_map_seq s bios = some s2 →
      s2.avg_size c * s2.reqs c ≤ T + (bios.map fun bio => bio.segs.sum).sum ∧
      s2.reqs c = s.reqs c + (bios.map fun bio => bio.segs.length).sum := by
  intro bios
  induction bios with
  | nil =>
    intro s s2 T _ _ hT hrun
    cases hrun
    exact ⟨by simpa using hT, by simp⟩
  | cons bio rest ih =>
    intro s s2 T hcls hno hT hrun
    have hc : bio.cls = some c := hcls bio (List.mem_cons_self _ _)
    obtain ⟨hstep, hrest⟩ := hno
    have hrun2 : (dmp_map s bio).bind (fun r => dmp_map_seq r.1 rest) = some s2 := hrun
    cases hm : dmp_map s bio with
    | none => rw [hm] at hrun2; cases hrun2
    | some r =>
      rw [hm] at hrun2
      have hseq : dmp_map_seq r.1 rest = some s2 := hrun2
      simp only [hm] at hrest
      obtain ⟨s1, code⟩ := r
      obtain ⟨er, ea⟩ := dmp_map_step_exact c s s1 bio code hc hstep hm
      have hle : s1.avg_size c * s1.reqs c ≤ T + bio.segs.sum := by
        rw [er, ea]
        have := Nat.div_mul_le_self (s.avg_size c * s.reqs c + bio.segs.sum)
          (s.reqs c + bio.segs.length)
        omega
      obtain ⟨g1, g2⟩ := ih s1 s2 (T + bio.segs.sum)
        (fun x hx => hcls x (List.mem_cons_of_mem _ hx)) hrest hle hseq
      simp only [List.map_cons, List.sum_cons]
      constructor
      · omega
      · rw [g2, er]; omega

theorem no_overflow_seq_cons (c : IoClass) (s s1 : State) (bio : Bio) (rest : List Bio)
    (r : Int) (h : dmp_map s bio = some (s1, r)) :
    no_overflow_seq c s (bio :: rest) ↔
      (no_overflow_step c s bio ∧ no_overflow_seq c s1 rest) := by
  simp only [no_overflow_seq, h]

theorem no_overflow_seq_nil (c : IoClass) (s : State) : no_overflow_seq c s [] := by
  simp only [no_overflow_seq]

/-- C16: in every state `s` that `dmp_map` reaches from a zero count of a class by a
sequence of bios of that class in which nothing wraps around, the stored average does
not overestimate: `avg * count` is at most the bytes observed for the class; and a
further update by a bio of `u > 0` segments totalling `b` bytes, again without
wrap-around, leaves an average between `min oldAvg (b / u)` and `max oldAvg (b / u)`
that still does not overestimate. -/
theorem dmp_map_never_overestimates (c : IoClass) (s0 s s2 : State) (bios : List Bio)
    (bio : Bio) (hr0 : s0.reqs c = 0)
    (hcls : ∀ x ∈ bios, x.cls = some c) (hc : bio.cls = some c)
    (hno : no_overflow_seq c s0 bios) (hrun : dmp_map_seq s0 bios = some s)
    (hstep : no_overflow_step c s bio)
    (hmap : dmp_map s bio = some (s2, DM_MAPIO_SUBMITTED))
    (hu : 0 < bio.segs.length) :
    s.avg_size c * s.reqs c ≤ (bios.map fun x => x.segs.sum).sum ∧
    s.reqs c = (bios.map fun x => x.segs.length).sum ∧
    min (s.avg_size c) (bio.segs.sum / bio.segs.length) ≤ s2.avg_size c ∧
    s2.avg_size c ≤ max (s.avg_size c) (bio.segs.sum / bio.segs.length) ∧
    s2.avg_size c * s2.reqs c ≤ (bios.map fun x => x.segs.sum).sum + bio.segs.sum := by
  obtain ⟨g1, g2⟩ := dmp_map_seq_reached c bios s0 s 0 hcls hno
    (by rw [hr0]; simp) hrun
  rw [Nat.zero_add] at g1
  rw [hr0, Nat.zero_add] at g2
  obtain ⟨er, ea⟩ := dmp_map_step_exact c s s2 bio _ hc hstep hmap
  obtain ⟨b1, b2⟩ := avg_between (s.avg_size c) (s.reqs c) bio.segs.sum bio.segs.length hu
  rw [← ea] at b1 b2
  refine ⟨g1, g2, b1, b2, ?_⟩
  rw [er, ea]
  have := Nat.div_mul_le_self (s.avg_size c * s.reqs c + bio.segs.sum)
    (s.reqs c + bio.segs.length)
  omega

/-- Witness of C16: from zero counters a read of 3 segments (8704 bytes) and then a
read of 1 segment (4096 bytes). -/
theorem dmp_map_never_overestimates_witness :
    ∃ s s2, dmp_map_seq header_state [⟨REQ_OP_READ, false, [4096, 4096, 512]⟩] = some s ∧
      dmp_map s ⟨REQ_OP_READ, false, [4096]⟩ = some (s2, DM_MAPIO_SUBMITTED) ∧
      s.avg_size IoClass.Read * s.reqs IoClass.Read ≤ 8704 ∧
      min (s.avg_size IoClass.Read) 4096 ≤ s2.avg_size IoClass.Read ∧
      s2.avg_size IoClass.Read ≤ max (s.avg_size IoClass.Read) 4096 := by
  obtain ⟨s1, h1, hwf1, r1, a1, -⟩ := dmp_map_of_cls header_state
    ⟨REQ_OP_READ, false, [4096, 4096, 512]⟩ IoClass.Read header_state_wf (by decide)
    (by decide)
  have r1n : s1.reqs IoClass.Read = 3 := by rw [r1]; decide
  have a1n : s1.avg_size IoClass.Read = 2901 := by rw [a1]; decide
  obtain ⟨s2, h2, -⟩ := dmp_map_of_cls s1
    ⟨REQ_OP_READ, false, [4096]⟩ IoClass.Read hwf1 (by decide)
    (by rw [r1n]; decide)
  have hrun : dmp_map_seq header_state [⟨REQ_OP_READ, false, [4096, 4096, 512]⟩]
      = some s1 := by
    simp only [dmp_map_seq, h1, Option.some_bind]
  have hno : no_overflow_seq IoClass.Read header_state
      [⟨REQ_OP_READ, false, [4096, 4096, 512]⟩] := by
    exact (no_overflow_seq_cons _ _ _ _ _ _ h1).2
      ⟨⟨by decide, by decide, by decide, by decide⟩, no_overflow_seq_nil _ _⟩
  have hstep : no_overflow_step IoClass.Read s1 ⟨REQ_OP_READ, false, [4096]⟩ := by
    refine ⟨by decide, by decide, ?_, ?_⟩
    · rw [r1n, a1n]; decide
    · rw [r1n]; decide
  obtain ⟨g1, -, g3, g4, -⟩ := dmp_map_never_overestimates IoClass.Read header_state s1 s2
    [⟨REQ_OP_READ, false, [4096, 4096, 512]⟩] ⟨REQ_OP_READ, false, [4096]⟩ rfl
    (by decide) (by decide) hno hrun hstep h2 (by decide)
  have e1 : ([(⟨REQ_OP_READ, false, [4096, 4096, 512]⟩ : Bio)].map fun x => x.segs.sum).sum
      = 8704 := by decide
  have e2 : (⟨REQ_OP_READ, false, [4096]⟩ : Bio).segs.sum
      / (⟨REQ_OP_READ, false, [4096]⟩ : Bio).segs.length = 4096 := by decide
  rw [e1] at g1
  rw [e2] at g3 g4
  exact ⟨s1, s2, hrun, h2, g1, g3, g4⟩

/-! ## `how_many_digits` counts decimal digits -/

theorem how_many_digits_loop_bounds (n : Nat) :
    ∀ res, n ≠ 0 →
      ∃ k, 1 ≤ k ∧ how_many_digits_loop n res = res + k ∧ 10 ^ (k - 1) ≤ n ∧ n < 10 ^ k := by
  induction n using Nat.strong_induction_on with
  | _ n ih =>
    intro res hn
    rw [how_many_digits_loop_pos n res hn]
    by_cases hz : n / 10 = 0
    · rw [hz, how_many_digits_loop_zero]
      refine ⟨1, le_refl 1, rfl, ?_, ?_⟩
      · simp only [Nat.sub_self, Nat.pow_zero]; omega
      · simp only [Nat.pow_one]; omega
    · obtain ⟨k, hk, hl, hlo, hhi⟩ := ih (n / 10) (by omega) (res + 1) hz
      refine ⟨k + 1, by omega, by rw [hl]; omega, ?_, ?_⟩
      · have e : 10 ^ (k + 1 - 1) = 10 ^ (k - 1) * 10 := by
          obtain ⟨j, rfl⟩ : ∃ j, k = j + 1 := ⟨k - 1, by omega⟩
          simp only [Nat.add_sub_cancel, Nat.pow_succ]
        rw [e]
        exact (Nat.le_div_iff_mul_le (by decide)).1 hlo
      · rw [Nat.pow_succ]
        exact (Nat.div_lt_iff_lt_mul (by decide)).1 hhi

theorem pow_window_unique (n j k : Nat) (hj : 1 ≤ j) (hk : 1 ≤ k)
    (h1 : 10 ^ (j - 1) ≤ n) (h2 : n < 10 ^ j) (h3 : 10 ^ (k - 1) ≤ n) (h4 : n < 10 ^ k) :
    j = k := by
  have a : j - 1 < k := (Nat.pow_lt_pow_iff_right (by decide : 1 < 10)).1 (lt_of_le_of_lt h1 h4)
  have b : k - 1 < j := (Nat.pow_lt_pow_iff_right (by decide : 1 < 10)).1 (lt_of_le_of_lt h3 h2)
  omega

/-- C17: for every unsigned 64-bit `n`, `how_many_digits n` (a total function: the loop
divides a non-zero number by 10 each round) is the number of characters of the plain
decimal rendering of `n` that `%llu` produces; it is 1 for `n = 0`, otherwise the
unique `k ≥ 1` with `10 ^ (k - 1) ≤ n < 10 ^ k`, and it is at most 20. -/
theorem how_many_digits_spec (n : Nat) (h : n < 2 ^ 64) :
    how_many_digits n = (fmt_llu n).length ∧
    String.mk (fmt_llu n) = toString n ∧
    (n = 0 → how_many_digits n = 1) ∧
    (n ≠ 0 → 1 ≤ how_many_digits n ∧
      10 ^ (how_many_digits n - 1) ≤ n ∧ n < 10 ^ how_many_digits n ∧
      ∀ k, 1 ≤ k → 10 ^ (k - 1) ≤ n → n < 10 ^ k → k = how_many_digits n) ∧
    how_many_digits n ≤ 20 := by
  refine ⟨how_many_digits_eq_length n, rfl, ?_, ?_, how_many_digits_le n h⟩
  · intro hn
    subst hn
    unfold how_many_digits
    rw [how_many_digits_loop_zero]; rfl
  · intro hn
    obtain ⟨k, hk, hl, hlo, hhi⟩ := how_many_digits_loop_bounds n 0 hn
    have e : how_many_digits n = k := by
      unfold how_many_digits
      rw [if_neg hn, hl, Nat.zero_add]
    rw [e]
    exact ⟨hk, hlo, hhi, fun j hj h1 h2 => pow_window_unique n j k hj hk h1 h2 hlo hhi⟩

/-- Witness of C17: the largest 64-bit value has 20 digits. -/
theorem how_many_digits_spec_witness :
    (18446744073709551615 : Nat) < 2 ^ 64 ∧
    how_many_digits 18446744073709551615 = (fmt_llu 18446744073709551615).length ∧
    (fmt_llu 18446744073709551615).length = 20 ∧
    how_many_digits 18446744073709551615 ≤ 20 :=
  ⟨by decide, (how_many_digits_spec 18446744073709551615 (by decide)).1, by decide,
    (how_many_digits_spec 18446744073709551615 (by decide)).2.2.2.2⟩

/-! ## A failed `sysfs_stat_init` -/

/-- The two late failures of `sysfs_stat_init`: the buffer has been rendered, is
given to `kfree`, and `-ENOMSG` is returned. -/
theorem sysfs_stat_init_enomsg (host : SysfsHost) (hk : host.kzalloc_ok = true)
    (hf : host.kobject_ok = false ∨ host.create_file_ok = false) :
    (sysfs_stat_init host).map (fun r => (r.1.stat_buf, r.2)) = some ([], -42) := by
  obtain ⟨hc, hl⟩ := header_state_wf
  obtain ⟨buf, hs, -⟩ := save_to_buf_ok header_state hc (by rw [hl]; decide)
  rw [sysfs_stat_init_eq host hk, hs, Option.some_bind]
  by_cases h1 : host.kobject_ok = false
  · rw [if_pos h1]; rfl
  · rcases hf with h2 | h2
    · exact absurd h2 h1
    · rw [if_neg h1, if_pos h2]; rfl

/-- A store through a null or freed `stat_buf` has no result. -/
theorem save_to_buf_nil (a b c d : Nat) : save_to_buf ⟨a, b, c, d, []⟩ = none := by
  unfold save_to_buf
  have h1 : sprintf_at [] 13 (fmt_llu a ++ "\n avg size: ".toList) = none := by
    unfold sprintf_at
    rw [if_neg (by simp)]
  simp only [h1, Option.none_bind]

/-- C15, failing input: `kzalloc` fails in `sysfs_stat_init`, which returns `-ENOMEM`
with `stat_buf` null; `dmp_init` drops that code and with `dm_register_target`
returning 0 the target is registered.  In the state reached, a refused discard returns
`DM_MAPIO_KILL` and leaves a `stat_buf` that holds no text, not the 86 characters of
the rendering of the counters, and a read of one 4096-byte segment stores through the
null `stat_buf` in `save_to_buf`, so the call has no result.  The failures after the
allocation return `-ENOMSG` with `stat_buf` freed, with the same effect. -/
theorem dmp_map_after_failed_init :
    sysfs_stat_init ⟨false, true, true⟩ = some (⟨0, 0, 0, 0, []⟩, -12) ∧
    dmp_init ⟨false, true, true⟩ 0 = some (⟨0, 0, 0, 0, []⟩, 0) ∧
    dmp_map ⟨0, 0, 0, 0, []⟩ ⟨REQ_OP_DISCARD, false, [4096]⟩
      = some (⟨0, 0, 0, 0, []⟩, DM_MAPIO_KILL) ∧
    cstr (⟨0, 0, 0, 0, []⟩ : State).stat_buf = [] ∧
    (report ⟨0, 0, 0, 0, []⟩).length = 86 ∧
    dmp_map ⟨0, 0, 0, 0, []⟩ ⟨REQ_OP_READ, false, [4096]⟩ = none ∧
    (sysfs_stat_init ⟨true, false, true⟩).map (fun r => (r.1.stat_buf, r.2))
      = some ([], -42) ∧
    (sysfs_stat_init ⟨true, true, false⟩).map (fun r => (r.1.stat_buf, r.2))
      = some ([], -42) := by
  refine ⟨rfl, rfl, dmp_map_of_cls_none _ _ (by decide), rfl, by decide, ?_,
    sysfs_stat_init_enomsg _ rfl (Or.inl rfl), sysfs_stat_init_enomsg _ rfl (Or.inr rfl)⟩
  unfold dmp_map
  simp only [REQ_OP_READ, if_true, Bool.false_eq_true, if_false, save_to_buf_nil,
    Option.map_none']
  cases udiv64 ((0 * 0 % 2 ^ 64 + (bio_for_each_segment [4096] (0, 0)).2) % 2 ^ 64)
      ((0 + (bio_for_each_segment [4096] (0, 0)).1) % 2 ^ 64) <;> rfl

/-! ## Calls that run at the same time -/

theorem interleave_cons (s : State) (calls : List Call) (i : Nat) (schedule : List Nat)
    (t : Call) (ht : calls[i]? = some t) :
    interleave s calls (i :: schedule)
      = (call_step s t).bind fun r => interleave r.1 (calls.set i r.2) schedule := by
  simp only [interleave, ht]

theorem interleave_step (s s2 : State) (calls : List Call) (i : Nat) (schedule : List Nat)
    (t t2 : Call) (ht : calls[i]? = some t) (hs : call_step s t = some (s2, t2)) :
    interleave s calls (i :: schedule) = interleave s2 (calls.set i t2) schedule := by
  rw [interleave_cons s calls i schedule t ht, hs, Option.some_bind]

theorem call_step_refuse (s : State) (bio : Bio) (h : bio.cls = none) :
    call_step s ⟨bio, Pc.at_switch⟩ = some (s, ⟨bio, Pc.returned DM_MAPIO_KILL⟩) := by
  rcases cls_none bio h with ⟨h1, h2⟩ | ⟨h1, h2⟩
  · simp only [call_step, h1, h2, if_true]
  · simp only [call_step, h1, h2, if_false]

theorem call_step_read_avg (s : State) (bio : Bio) (h : bio.cls = some IoClass.Read) :
    call_step s ⟨bio, Pc.at_switch⟩
      = (udiv64 (((s.read_avg_size * s.read_reqs) % 2 ^ 64 + bio.len) % 2 ^ 64)
            ((s.read_reqs + bio.nsegs) % 2 ^ 64)).map fun avg =>
          ({ s with read_avg_size := avg }, ⟨bio, Pc.at_count⟩) := by
  obtain ⟨h1, h2⟩ := cls_read bio h
  simp only [call_step, h1, h2, if_true, Bool.false_eq_true, if_false, Bio.len, Bio.nsegs]

theorem call_step_write_avg (s : State) (bio : Bio) (h : bio.cls = some IoClass.Write) :
    call_step s ⟨bio, Pc.at_switch⟩
      = (udiv64 (((s.write_avg_size * s.write_reqs) % 2 ^ 64 + bio.len) % 2 ^ 64)
            ((s.write_reqs + bio.nsegs) % 2 ^ 64)).map fun avg =>
          ({ s with write_avg_size := avg }, ⟨bio, Pc.at_count⟩) := by
  obtain ⟨h1, h2⟩ := cls_write bio h
  simp only [call_step, Bio.len, Bio.nsegs]
  rw [if_neg h1, if_pos h2]

theorem call_step_read_count (s : State) (bio : Bio) (h : bio.cls = some IoClass.Read) :
    call_step s ⟨bio, Pc.at_count⟩
      = some ({ s with read_reqs := (s.read_reqs + bio.nsegs) % 2 ^ 64 },
              ⟨bio, Pc.at_save⟩) := by
  obtain ⟨h1, -⟩ := cls_read bio h
  simp only [call_step, h1, if_true, Bio.nsegs]

theorem call_step_write_count (s : State) (bio : Bio) (h : bio.cls = some IoClass.Write) :
    call_step s ⟨bio, Pc.at_count⟩
      = some ({ s with write_reqs := (s.write_reqs + bio.nsegs) % 2 ^ 64 },
              ⟨bio, Pc.at_save⟩) := by
  obtain ⟨h1, -⟩ := cls_write bio h
  simp only [call_step, Bio.nsegs]
  rw [if_neg h1]

theorem call_step_save (s : State) (bio : Bio) :
    call_step s ⟨bio, Pc.at_save⟩
      = (save_to_buf s).map fun s2 => (s2, ⟨bio, Pc.returned DM_MAPIO_SUBMITTED⟩) := rfl

theorem call_step_returned (s : State) (bio : Bio) (code : Int) :
    call_step s ⟨bio, Pc.returned code⟩ = some (s, ⟨bio, Pc.returned code⟩) := rfl

/-- One call of `dmp_map` is its statements run one after the other. -/
theorem dmp_map_as_steps (s : State) (bio : Bio) :
    (interleave s [⟨bio, Pc.at_switch⟩] [0, 0, 0]).map (fun r => (r.1, r.2.map Call.pc))
      = (dmp_map s bio).map (fun r => (r.1, [Pc.returned r.2])) := by
  cases hc : bio.cls with
  | none =>
    rw [dmp_map_of_cls_none s bio hc,
      interleave_step s s _ 0 _ ⟨bio, Pc.at_switch⟩ _ rfl (call_step_refuse s bio hc),
      interleave_step s s _ 0 _ ⟨bio, Pc.returned DM_MAPIO_KILL⟩ _ rfl
        (call_step_returned s bio _),
      interleave_step s s _ 0 _ ⟨bio, Pc.returned DM_MAPIO_KILL⟩ _ rfl
        (call_step_returned s bio _)]
    rfl
  | some c =>
    cases c with
    | Read =>
      obtain ⟨h1, h2⟩ := cls_read bio hc
      rw [interleave_cons s _ 0 _ ⟨bio, Pc.at_switch⟩ rfl, call_step_read_avg s bio hc]
      unfold dmp_map
      simp only [h1, h2, if_true, Bool.false_eq_true, if_false]
      cases hd : udiv64 (((s.read_avg_size * s.read_reqs) % 2 ^ 64 + bio.len) % 2 ^ 64)
          ((s.read_reqs + bio.nsegs) % 2 ^ 64) with
      | none =>
        have hd2 := hd
        unfold Bio.len Bio.nsegs at hd2
        rw [hd2]
        rfl
      | some avg =>
        have hd2 := hd
        unfold Bio.len Bio.nsegs at hd2
        rw [hd2]
        simp only [Option.map_some', Option.some_bind]
        rw [interleave_step _ _ _ 0 _ ⟨bio, Pc.at_count⟩ _ rfl (call_step_read_count _ bio hc),
          interleave_cons _ _ 0 _ ⟨bio, Pc.at_save⟩ rfl, call_step_save]
        cases hs : save_to_buf
            { s with read_avg_size := avg,
                     read_reqs := (s.read_reqs + (bio_for_each_segment bio.segs (0, 0)).1)
                        % 2 ^ 64 } with
        | none =>
          have hs2 : save_to_buf
              { ({ s with read_avg_size := avg } : State) with
                  read_reqs := (({ s with read_avg_size := avg } : State).read_reqs
                    + bio.nsegs) % 2 ^ 64 } = none := hs
          rw [hs2]
          rfl
        | some s3 =>
          have hs2 : save_to_buf
              { ({ s with read_avg_size := avg } : State) with
                  read_reqs := (({ s with read_avg_size := avg } : State).read_reqs
                    + bio.nsegs) % 2 ^ 64 } = some s3 := hs
          rw [hs2]
          rfl
    | Write =>
      obtain ⟨h1, h2⟩ := cls_write bio hc
      rw [interleave_cons s _ 0 _ ⟨bio, Pc.at_switch⟩ rfl, call_step_write_avg s bio hc]
      unfold dmp_map
      rw [if_neg h1, if_pos h2]
      cases hd : udiv64 (((s.write_avg_size * s.write_reqs) % 2 ^ 64 + bio.len) % 2 ^ 64)
          ((s.write_reqs + bio.nsegs) % 2 ^ 64) with
      | none =>
        have hd2 := hd
        unfold Bio.len Bio.nsegs at hd2
        simp only [hd2]
        rfl
      | some avg =>
        have hd2 := hd
        unfold Bio.len Bio.nsegs at hd2
        simp only [hd2, Option.map_some', Option.some_bind]
        rw [interleave_step _ _ _ 0 _ ⟨bio, Pc.at_count⟩ _ rfl (call_step_write_count _ bio hc),
          interleave_cons _ _ 0 _ ⟨bio, Pc.at_save⟩ rfl, call_step_save]
        cases hs : save_to_buf
            { s with write_avg_size := avg,
                     write_reqs := (s.write_reqs + (bio_for_each_segment bio.segs (0, 0)).1)
                        % 2 ^ 64 } with
        | none =>
          have hs2 : save_to_buf
              { ({ s with write_avg_size := avg } : State) with
                  write_reqs := (({ s with write_avg_size := avg } : State).write_reqs
                    + bio.nsegs) % 2 ^ 64 } = none := hs
          rw [hs2]
          rfl
        | some s3 =>
          have hs2 : save_to_buf
              { ({ s with write_avg_size := avg } : State) with
                  write_reqs := (({ s with write_avg_size := avg } : State).write_reqs
                    + bio.nsegs) % 2 ^ 64 } = some s3 := hs
          rw [hs2]
          rfl

/-- C14, failing input: two reads, one segment of 4096 bytes and one segment of 512
bytes, are mapped at the same time on the freshly initialised state, and the
statements run in the order l.142 (first call), l.142 (second call), l.143, l.143,
then both `save_to_buf`.  Both calls return `DM_MAPIO_SUBMITTED` and the count is 2,
but the stored average is 512, while either serial order of the two calls ends with
the average 2304: the result is that of no serial order. -/
theorem dmp_map_interleaved_average :
    ((sysfs_stat_init sysfs_ok).bind fun r =>
        interleave r.1
          [⟨⟨REQ_OP_READ, false, [4096]⟩, Pc.at_switch⟩,
           ⟨⟨REQ_OP_READ, false, [512]⟩, Pc.at_switch⟩]
          [0, 1, 0, 1, 0, 1]).map
      (fun x => (x.1.read_reqs, x.1.read_avg_size, x.2.map Call.pc))
      = some (2, 512, [Pc.returned DM_MAPIO_SUBMITTED, Pc.returned DM_MAPIO_SUBMITTED]) ∧
    ((sysfs_stat_init sysfs_ok).bind fun r =>
        dmp_map_seq r.1 [⟨REQ_OP_READ, false, [4096]⟩, ⟨REQ_OP_READ, false, [512]⟩]).map
      (fun t => (t.read_reqs, t.read_avg_size)) = some (2, 2304) ∧
    ((sysfs_stat_init sysfs_ok).bind fun r =>
        dmp_map_seq r.1 [⟨REQ_OP_READ, false, [512]⟩, ⟨REQ_OP_READ, false, [4096]⟩]).map
      (fun t => (t.read_reqs, t.read_avg_size)) = some (2, 2304) := by
  obtain ⟨s0, h0, hwf0, -, r0, a0, w0, wa0, -⟩ := sysfs_stat_init_ok
  have serial : ∀ (x y : Nat), x < 2 ^ 32 → y < 2 ^ 32 →
      (dmp_map_seq s0 [⟨REQ_OP_READ, false, [x]⟩, ⟨REQ_OP_READ, false, [y]⟩]).map
        (fun t => (t.read_reqs, t.read_avg_size)) = some (2, (x * 1 + y) / 2) := by
    intro x y hx hy
    have hnx : Bio.nsegs ⟨REQ_OP_READ, false, [x]⟩ = 1 := rfl
    have hny : Bio.nsegs ⟨REQ_OP_READ, false, [y]⟩ = 1 := rfl
    have hlx : Bio.len ⟨REQ_OP_READ, false, [x]⟩ = x := by
      rw [len_eq]; simp only [List.sum_cons, List.sum_nil, Nat.add_zero]
      exact Nat.mod_eq_of_lt hx
    have hly : Bio.len ⟨REQ_OP_READ, false, [y]⟩ = y := by
      rw [len_eq]; simp only [List.sum_cons, List.sum_nil, Nat.add_zero]
      exact Nat.mod_eq_of_lt hy
    obtain ⟨s1, h1, hwf1, r1, a1, -⟩ := dmp_map_of_cls s0
      ⟨REQ_OP_READ, false, [x]⟩ IoClass.Read hwf0 rfl
      (by show (s0.read_reqs + _) % 2 ^ 64 ≠ 0; rw [r0, hnx]; decide)
    have r1n : s1.read_reqs = 1 := by
      have : s1.read_reqs = (s0.read_reqs + _) % 2 ^ 64 := r1
      rw [this, r0, hnx]; rfl
    have a1n : s1.read_avg_size = x := by
      have : s1.read_avg_size = ((s0.read_avg_size * s0.read_reqs) % 2 ^ 64 + _) % 2 ^ 64
          / ((s0.read_reqs + _) % 2 ^ 64) := a1
      rw [this, r0, a0, hnx, hlx]
      have e1 : (0 * 0 % 2 ^ 64 + x) % 2 ^ 64 = x := by
        rw [Nat.zero_mul, Nat.zero_mod, Nat.zero_add]; exact Nat.mod_eq_of_lt (by omega)
      rw [e1]
      show x / 1 = x
      exact Nat.div_one x
    obtain ⟨s2, h2, -, r2, a2, -⟩ := dmp_map_of_cls s1
      ⟨REQ_OP_READ, false, [y]⟩ IoClass.Read hwf1 rfl
      (by show (s1.read_reqs + _) % 2 ^ 64 ≠ 0; rw [r1n, hny]; decide)
    have r2n : s2.read_reqs = 2 := by
      have : s2.read_reqs = (s1.read_reqs + _) % 2 ^ 64 := r2
      rw [this, r1n, hny]; rfl
    have a2n : s2.read_avg_size = (x * 1 + y) / 2 := by
      have : s2.read_avg_size = ((s1.read_avg_size * s1.read_reqs) % 2 ^ 64 + _) % 2 ^ 64
          / ((s1.read_reqs + _) % 2 ^ 64) := a2
      rw [this, r1n, a1n, hny, hly]
      have e1 : (x * 1 % 2 ^ 64 + y) % 2 ^ 64 = x * 1 + y := by
        rw [Nat.mod_eq_of_lt (by omega : x * 1 < 2 ^ 64)]
        exact Nat.mod_eq_of_lt (by omega)
      rw [e1]
      rfl
    simp only [dmp_map_seq, h1, h2, Option.some_bind, Option.map_some', r2n, a2n]
  refine ⟨?_, ?_, ?_⟩
  · obtain ⟨rr, ra, wr, wa, buf⟩ := s0
    simp only at r0 a0 w0 wa0
    subst r0 a0 w0 wa0
    have hlen : buf.length = PAGE_SIZE - 1 := hwf0.2
    have hc2 : counters_u64 ⟨2, 512, 0, 0, buf⟩ :=
      counters_u64_mk _ _ _ _ _ (by decide) (by decide) (by decide) (by decide)
    obtain ⟨buf1, hs1, hl1, -⟩ := save_to_buf_ok ⟨2, 512, 0, 0, buf⟩ hc2
      (by show 201 ≤ buf.length; rw [hlen]; decide)
    have hc3 : counters_u64 ⟨2, 512, 0, 0, buf1⟩ :=
      counters_u64_mk _ _ _ _ _ (by decide) (by decide) (by decide) (by decide)
    have hl1b : buf1.length = buf.length := hl1
    obtain ⟨buf2, hs2, -⟩ := save_to_buf_ok ⟨2, 512, 0, 0, buf1⟩ hc3
      (by show 201 ≤ buf1.length; rw [hl1b, hlen]; decide)
    rw [h0, Option.some_bind]
    show (interleave ⟨0, 0, 0, 0, buf⟩ _ _).map _ = _
    rw [interleave_step ⟨0, 0, 0, 0, buf⟩ ⟨0, 4096, 0, 0, buf⟩ _ 0 _
          ⟨⟨REQ_OP_READ, false, [4096]⟩, Pc.at_switch⟩
          ⟨⟨REQ_OP_READ, false, [4096]⟩, Pc.at_count⟩ rfl (by simp only [call_step]; rfl),
      interleave_step ⟨0, 4096, 0, 0, buf⟩ ⟨0, 512, 0, 0, buf⟩ _ 1 _
          ⟨⟨REQ_OP_READ, false, [512]⟩, Pc.at_switch⟩
          ⟨⟨REQ_OP_READ, false, [512]⟩, Pc.at_count⟩ rfl (by simp only [call_step]; rfl),
      interleave_step ⟨0, 512, 0, 0, buf⟩ ⟨1, 512, 0, 0, buf⟩ _ 0 _
          ⟨⟨REQ_OP_READ, false, [4096]⟩, Pc.at_count⟩
          ⟨⟨REQ_OP_READ, false, [4096]⟩, Pc.at_save⟩ rfl (by rfl),
      interleave_step ⟨1, 512, 0, 0, buf⟩ ⟨2, 512, 0, 0, buf⟩ _ 1 _
          ⟨⟨REQ_OP_READ, false, [512]⟩, Pc.at_count⟩
          ⟨⟨REQ_OP_READ, false, [512]⟩, Pc.at_save⟩ rfl (by rfl),
      interleave_step ⟨2, 512, 0, 0, buf⟩ ⟨2, 512, 0, 0, buf1⟩ _ 0 _
          ⟨⟨REQ_OP_READ, false, [4096]⟩, Pc.at_save⟩
          ⟨⟨REQ_OP_READ, false, [4096]⟩, Pc.returned DM_MAPIO_SUBMITTED⟩ rfl
          (by rw [call_step_save, hs1]; rfl),
      interleave_step ⟨2, 512, 0, 0, buf1⟩ ⟨2, 512, 0, 0, buf2⟩ _ 1 _
          ⟨⟨REQ_OP_READ, false, [512]⟩, Pc.at_save⟩
          ⟨⟨REQ_OP_READ, false, [512]⟩, Pc.returned DM_MAPIO_SUBMITTED⟩ rfl
          (by rw [call_step_save, hs2]; rfl)]
    rfl
  · rw [h0, Option.some_bind]
    exact serial 4096 512 (by decide) (by decide)
  · rw [h0, Option.some_bind]
    exact serial 512 4096 (by decide) (by decide)

end Dmp
